import Mathlib

/-!
# Registry endpoint resolution (`util/resolver/resolver.go`)

A shallow embedding of the resolver package: the trust-context builder
`loadTLSConfig`, the endpoint variant expander `fillInsecureOpts`, and the
per-host function that `NewRegistryConfig` hands to `docker.Registries`.

Conventions of the embedding.

* A Go `[]byte` is a `List UInt8`; a `*bool` is an `Option Bool` (`nil` is `none`).
* A Go `(value, error)` result is an `Except GoError value`: `return nil, err` is
  `.error err` and `return v, nil` is `.ok v`.  A `nil` slice is the empty list.
* The configuration `map[string]RegistryConfig` is a function
  `String → Option RegistryConfig`; `m[k]` with the comma-ok form is `m k`, and the
  plain index expression `m[k]` is `(m k).getD zero`, the zero value when absent.
* Everything the package calls in the Go standard library or in containerd and that
  depends on the machine or on parsing (`x509.SystemCertPool`, `runtime.GOOS`,
  `(*CertPool).AppendCertsFromPEM`, `tls.X509KeyPair`, `docker.MatchLocalhost`) is a
  field of `Platform`, over which every theorem is universally quantified.
* `*tls.Config` is a pointer: `fillInsecureOpts` stores it in a transport and
  afterwards writes `InsecureSkipVerify` through it.  The embedding keeps the
  pointed-to value as a local that is threaded through the function, marks each
  emitted endpoint whose client aliases it, and reads the final value when the
  function returns.

The file also embeds the build reference of the history tests (`tests/history.go`):
`buildRef`, its `String` method, and the parsing done by `buildTestProject`.
-/

namespace Resolver

/-! ## Data model -/

/-- Go `[]byte`. -/
abbrev Bytes := List UInt8

/-- The bytes of a Go string literal. -/
def utf8 (s : String) : Bytes := s.toUTF8.data.toList

/-- A Go `error`, identified by the text `Error()` returns. -/
structure GoError where
  msg : Bytes
deriving DecidableEq, Repr

deriving instance DecidableEq for Except

/-- Go `errors.Wrapf(err, format, args...)` of `github.com/pkg/errors` for a non-nil
`err`; `formatted` is the already formatted message.  The text of the result is
`formatted + ": " + err.Error()`. -/
def Wrapf (err : GoError) (formatted : Bytes) : GoError :=
  ⟨formatted ++ utf8 ": " ++ err.msg⟩

/-- Type `TLSKeyPair` (resolver.go:26). -/
structure TLSKeyPair where
  Key : Bytes
  Certificate : Bytes
deriving DecidableEq, Repr

/-- Type `RegistryConfig` (resolver.go:18). -/
structure RegistryConfig where
  Mirrors : List String
  PlainHTTP : Option Bool
  Insecure : Option Bool
  RootCAs : List Bytes
  KeyPairs : List TLSKeyPair
deriving DecidableEq, Repr

/-- The Go zero value of `RegistryConfig`, which `m[mirror]` yields for a missing key. -/
def RegistryConfig.zero : RegistryConfig :=
  { Mirrors := [], PlainHTTP := none, Insecure := none, RootCAs := [], KeyPairs := [] }

/-- Type `x509.CertPool`: the certificates held, each by its raw encoding. -/
structure CertPool where
  certs : List Bytes
deriving DecidableEq, Repr

/-- Go `x509.NewCertPool()`: the empty pool. -/
def NewCertPool : CertPool := ⟨[]⟩

/-- Type `tls.Certificate`: the certificate chain and the private key. -/
structure TLSCertificate where
  Certificate : List Bytes
  PrivateKey : Bytes
deriving DecidableEq, Repr

/-- The fields of `tls.Config` the package touches; the literal `&tls.Config{}` is
`{}`: nil pool, no certificates, verification on. -/
structure TLSConfig where
  RootCAs : Option CertPool := none
  Certificates : List TLSCertificate := []
  InsecureSkipVerify : Bool := false
deriving DecidableEq, Repr

/-- Type `http.Transport` with the fields `newDefaultTransport` sets (durations in seconds,
`TLSNextProto` by its keys) and `TLSClientConfig`. -/
structure Transport where
  ProxyFromEnvironment : Bool
  DialTimeout : Nat
  DialKeepAlive : Nat
  MaxIdleConns : Nat
  IdleConnTimeout : Nat
  MaxIdleConnsPerHost : Nat
  TLSHandshakeTimeout : Nat
  ExpectContinueTimeout : Nat
  TLSNextProto : List String
  TLSClientConfig : Option TLSConfig
deriving DecidableEq, Repr

/-- The `http.RoundTripper` values the package builds: `tracing.NewTransport(t)`. -/
inductive RoundTripper where
  | tracing (inner : Transport)
deriving DecidableEq, Repr

/-- Type `http.Client`, by its transport. -/
structure HTTPClient where
  Transport : RoundTripper
deriving DecidableEq, Repr

/-- Type `docker.HostCapabilities`, a bit set. -/
abbrev HostCapabilities := Nat

/-- Constant `docker.HostCapabilityPull = 1 << 0`. -/
def HostCapabilityPull : HostCapabilities := 1
/-- Constant `docker.HostCapabilityResolve = 1 << 1`. -/
def HostCapabilityResolve : HostCapabilities := 2
/-- Constant `docker.HostCapabilityPush = 1 << 2`. -/
def HostCapabilityPush : HostCapabilities := 4

/-- Method `HostCapabilities.Has`: `c&t == t`. -/
def HostCapabilities.Has (c t : HostCapabilities) : Bool := c &&& t == t

/-- Type `docker.RegistryHost`.  `Client` is a pointer (`none` is nil); `Authorizer` is an
interface value, kept as an opaque handle. -/
structure RegistryHost where
  Client : Option HTTPClient
  Authorizer : Option Nat
  Host : String
  Scheme : String
  Path : String
  Capabilities : HostCapabilities
  Header : List (String × List String)
deriving DecidableEq, Repr

/-- What the package takes from the machine and from the libraries it calls. -/
structure Platform where
  /-- Value of `runtime.GOOS`. -/
  GOOS : String
  /-- Result of `x509.SystemCertPool()`. -/
  SystemCertPool : Except GoError CertPool
  /-- Method `(*x509.CertPool).AppendCertsFromPEM`: the pool after the call. -/
  AppendCertsFromPEM : CertPool → Bytes → CertPool
  /-- Result of `tls.X509KeyPair(certPEMBlock, keyPEMBlock)`. -/
  X509KeyPair : Bytes → Bytes → Except GoError TLSCertificate
  /-- Function `docker.MatchLocalhost`, its boolean result (the error result is discarded
  by the only caller). -/
  MatchLocalhost : String → Bool

/-- The configuration map `map[string]RegistryConfig`. -/
abbrev ConfigMap := String → Option RegistryConfig

/-- The index expression `m[k]`: the entry, or the zero value when there is none. -/
def ConfigMap.index (m : ConfigMap) (k : String) : RegistryConfig :=
  (m k).getD RegistryConfig.zero

/-! ## Transport factory (resolver.go:161-188) -/

/-- Function `newDefaultTransport` (resolver.go:174). -/
def newDefaultTransport : Transport :=
  { ProxyFromEnvironment := true
    DialTimeout := 30
    DialKeepAlive := 60
    MaxIdleConns := 30
    IdleConnTimeout := 120
    MaxIdleConnsPerHost := 4
    TLSHandshakeTimeout := 10
    ExpectContinueTimeout := 5
    TLSNextProto := []
    TLSClientConfig := none }

/-- Function `newDefaultClient` (resolver.go:161). -/
def newDefaultClient : HTTPClient :=
  { Transport := RoundTripper.tracing newDefaultTransport }

/-- The client built at resolver.go:56-60 and 66-71: a fresh default transport whose
`TLSClientConfig` is `tc`, wrapped for tracing. -/
def newTLSClient (tc : TLSConfig) : HTTPClient :=
  { Transport := RoundTripper.tracing { newDefaultTransport with TLSClientConfig := some tc } }

/-! ## Trust context builder (resolver.go:78-104) -/

/-- The loop at resolver.go:92-94, one pass: `tc.RootCAs.AppendCertsFromPEM(p)`.
The loop body runs only when `c.RootCAs` is non-empty, in which case line 89 has
set `tc.RootCAs`; the result of the call is ignored. -/
def appendRootCA (P : Platform) (tc : TLSConfig) (p : Bytes) : TLSConfig :=
  { tc with RootCAs := tc.RootCAs.map (fun pool => P.AppendCertsFromPEM pool p) }

/-- The loop at resolver.go:96-102 over the remaining key pairs. -/
def loadKeyPairs (P : Platform) : List TLSKeyPair → TLSConfig → Except GoError TLSConfig
  | [], tc => .ok tc
  | kp :: rest, tc =>
    match P.X509KeyPair kp.Certificate kp.Key with
    | .error err => .error (Wrapf err (utf8 "failed to load keypair for " ++ kp.Certificate))
    | .ok cert => loadKeyPairs P rest { tc with Certificates := tc.Certificates ++ [cert] }

/-- Function `loadTLSConfig` (resolver.go:78). -/
def loadTLSConfig (P : Platform) (c : RegistryConfig) : Except GoError TLSConfig :=
  let tc : TLSConfig := {}
  let withPool : Except GoError TLSConfig :=
    if c.RootCAs.length > 0 then
      match P.SystemCertPool with
      | .ok systemPool => .ok { tc with RootCAs := some systemPool }
      | .error err =>
        if P.GOOS = "windows" then
          .ok { tc with RootCAs := some NewCertPool }
        else
          .error (Wrapf err (utf8 "unable to get system cert pool"))
    else
      .ok tc
  match withPool with
  | .error err => .error err
  | .ok tc =>
    let tc := c.RootCAs.foldl (appendRootCA P) tc
    loadKeyPairs P c.KeyPairs tc

/-! ## Endpoint variant expander (resolver.go:31-76) -/

/-- An element of the local slice `hosts` while `fillInsecureOpts` runs: the endpoint,
and whether its client's transport holds the pointer `tc`. -/
structure PendingHost where
  host : RegistryHost
  aliasesTC : Bool
deriving DecidableEq, Repr

/-- The endpoint as the caller sees it, given the value `tc` points to on return. -/
def PendingHost.resolve (tc : TLSConfig) (p : PendingHost) : RegistryHost :=
  if p.aliasesTC then { p.host with Client := some (newTLSClient tc) } else p.host

/-- Function `fillInsecureOpts` (resolver.go:31). -/
def fillInsecureOpts (P : Platform) (host : String) (c : RegistryConfig) (h : RegistryHost) :
    Except GoError (List RegistryHost) :=
  match loadTLSConfig P c with
  | .error err => .error err
  | .ok tc =>
    let hosts : List PendingHost := []
    let isHTTP := false
    let isHTTP := if c.PlainHTTP = some true then true else isHTTP
    let isHTTP :=
      if c.PlainHTTP = none then (if P.MatchLocalhost host then true else isHTTP) else isHTTP
    let hosts := if isHTTP then hosts ++ [⟨{ h with Scheme := "http" }, false⟩] else hosts
    let step : List PendingHost × TLSConfig :=
      if c.Insecure = some true then
        (hosts ++ [⟨h, true⟩], { tc with InsecureSkipVerify := true })
      else
        (hosts, tc)
    let hosts := step.1
    let tc := step.2
    let hosts := if hosts.length = 0 then hosts ++ [⟨h, true⟩] else hosts
    .ok (hosts.map (PendingHost.resolve tc))

/-! ## Host resolver (resolver.go:107-159) -/

/-- The endpoint literal at resolver.go:118-124. -/
def mirrorTemplate (mirror : String) : RegistryHost :=
  { Scheme := "https"
    Client := some newDefaultClient
    Host := mirror
    Path := "/v2"
    Capabilities := HostCapabilityPull ||| HostCapabilityResolve
    Authorizer := none
    Header := [] }

/-- The endpoint literal at resolver.go:138-144. -/
def originTemplate (host : String) : RegistryHost :=
  { Scheme := "https"
    Client := some newDefaultClient
    Host := host
    Path := "/v2"
    Capabilities := HostCapabilityPush ||| HostCapabilityPull ||| HostCapabilityResolve
    Authorizer := none
    Header := [] }

/-- The loop at resolver.go:117-132 over the remaining mirrors, `out` being the
slice accumulated so far. -/
def mirrorLoop (P : Platform) (m : ConfigMap) :
    List String → List RegistryHost → Except GoError (List RegistryHost)
  | [], out => .ok out
  | mirror :: rest, out =>
    match fillInsecureOpts P mirror (m.index mirror) (mirrorTemplate mirror) with
    | .error err => .error err
    | .ok hosts => mirrorLoop P m rest (out ++ hosts)

/-- The function literal at resolver.go:109-153, which `NewRegistryConfig` passes as
the first resolver to `docker.Registries`. -/
def NewRegistryConfig.callback (P : Platform) (m : ConfigMap) (host : String) :
    Except GoError (List RegistryHost) :=
  match m host with
  | none => .ok []
  | some c =>
    match mirrorLoop P m c.Mirrors [] with
    | .error err => .error err
    | .ok out =>
      let host := if host = "docker.io" then "registry-1.docker.io" else host
      let h := originTemplate host
      match fillInsecureOpts P host c h with
      | .error err => .error err
      | .ok hosts => .ok (out ++ hosts)

/-! ## Observations on endpoints -/

/-- The TLS configuration carried by the endpoint's client, if any. -/
def RegistryHost.tlsConfig (e : RegistryHost) : Option TLSConfig :=
  match e.Client with
  | none => none
  | some client =>
    match client.Transport with
    | RoundTripper.tracing t => t.TLSClientConfig

/-- The endpoint's client carries a TLS configuration with verification disabled. -/
def RegistryHost.verificationDisabled (e : RegistryHost) : Bool :=
  match e.tlsConfig with
  | none => false
  | some tc => tc.InsecureSkipVerify

/-- The endpoint's client carries a TLS configuration with verification enabled. -/
def RegistryHost.verificationEnabled (e : RegistryHost) : Bool :=
  match e.tlsConfig with
  | none => false
  | some tc => !tc.InsecureSkipVerify

/-! ## A concrete platform and concrete configurations -/

/-- A Linux machine with an empty system pool, on which a key pair parses exactly
when neither block is empty, and `localhost` and `127.0.0.1` are the local hosts. -/
def linuxPlatform : Platform :=
  { GOOS := "linux"
    SystemCertPool := .ok ⟨[]⟩
    AppendCertsFromPEM := fun pool p => ⟨pool.certs ++ [p]⟩
    X509KeyPair := fun cert key =>
      if cert = [] ∨ key = [] then .error ⟨utf8 "tls: failed to find any PEM data"⟩
      else .ok ⟨[cert], key⟩
    MatchLocalhost := fun host => host = "localhost" ∨ host = "127.0.0.1" }

/-- No host is configured. -/
def emptyConfigs : ConfigMap := fun _ => none

/-- A configuration that only asks for TLS without verification. -/
def insecureOnly : RegistryConfig :=
  { RegistryConfig.zero with Insecure := some true }

/-- A configuration that only asks for plain HTTP. -/
def plainOnly : RegistryConfig :=
  { RegistryConfig.zero with PlainHTTP := some true }

/-- A configuration with one client key pair that does not parse. -/
def brokenKeyPair : RegistryConfig :=
  { RegistryConfig.zero with KeyPairs := [{ Key := [], Certificate := utf8 "bad" }] }

/-- Host `example.com` is served through `mirror.local`, which is itself configured for
plain HTTP. -/
def mirroredConfigs : ConfigMap := fun k =>
  if k = "example.com" then some { RegistryConfig.zero with Mirrors := ["mirror.local"] }
  else if k = "mirror.local" then some plainOnly
  else none

/-- What resolving `example.com` under `mirroredConfigs` gives. -/
def mirroredResult : List RegistryHost :=
  [{ mirrorTemplate "mirror.local" with Scheme := "http" },
   { originTemplate "example.com" with Client := some (newTLSClient {}) }]

/-- Host `example.com` has two mirrors, the second of which has a key pair that does not
parse. -/
def brokenMirrorConfigs : ConfigMap := fun k =>
  if k = "example.com" then
    some { RegistryConfig.zero with Mirrors := ["mirror.local", "broken.local"] }
  else if k = "mirror.local" then some plainOnly
  else if k = "broken.local" then some brokenKeyPair
  else none

/-- Host `docker.io` is configured for TLS without verification. -/
def dockerConfigs : ConfigMap := fun k =>
  if k = "docker.io" then some insecureOnly else none

/-- What resolving `docker.io` under `dockerConfigs` gives. -/
def dockerResult : List RegistryHost :=
  [{ originTemplate "registry-1.docker.io" with
      Client := some (newTLSClient { InsecureSkipVerify := true }) }]

/-! ## The first step of the trust context builder, on its own -/

/-- Lines 79-90 of `loadTLSConfig`: the fresh `tls.Config` and, when `c.RootCAs` is
not empty, the pool it starts from. -/
def startTLSConfig (P : Platform) (c : RegistryConfig) : Except GoError TLSConfig :=
  let tc : TLSConfig := {}
  if c.RootCAs.length > 0 then
    match P.SystemCertPool with
    | .ok systemPool => .ok { tc with RootCAs := some systemPool }
    | .error err =>
      if P.GOOS = "windows" then
        .ok { tc with RootCAs := some NewCertPool }
      else
        .error (Wrapf err (utf8 "unable to get system cert pool"))
  else
    .ok tc

/-! ## More concrete platforms and configurations -/

/-- The Linux machine of `linuxPlatform`, except that no system pool can be had. -/
def linuxNoPool : Platform :=
  { linuxPlatform with SystemCertPool := .error ⟨utf8 "x509: no system roots"⟩ }

/-- A Windows machine on which no system pool can be had. -/
def windowsNoPool : Platform :=
  { linuxPlatform with
    GOOS := "windows"
    SystemCertPool := .error ⟨utf8 "crypto/x509: system root pool is not available on Windows"⟩ }

/-- A Linux machine whose pool takes a PEM block only when it starts with a dash,
and leaves the pool as it is otherwise. -/
def pemPlatform : Platform :=
  { linuxPlatform with
    SystemCertPool := .ok ⟨[utf8 "system-root"]⟩
    AppendCertsFromPEM := fun pool p => if p.head? = some 45 then ⟨pool.certs ++ [p]⟩ else pool }

/-- A configuration with one root CA and nothing else. -/
def oneRootCA : RegistryConfig :=
  { RegistryConfig.zero with RootCAs := [utf8 "-ca-"] }

/-- A configuration with a root CA, a block that is no PEM, and one key pair. -/
def trustedConfig : RegistryConfig :=
  { RegistryConfig.zero with
    RootCAs := [utf8 "-ca-", utf8 "junk"]
    KeyPairs := [{ Key := utf8 "key", Certificate := utf8 "cert" }] }

/-- A configuration with two key pairs, the second of which does not parse. -/
def secondPairBroken : RegistryConfig :=
  { RegistryConfig.zero with
    KeyPairs := [{ Key := utf8 "key", Certificate := utf8 "cert" },
                 { Key := [], Certificate := utf8 "bad" }] }

/-- Host `example.com` is configured with `secondPairBroken`. -/
def brokenOriginConfigs : ConfigMap := fun k =>
  if k = "example.com" then some secondPairBroken else none

/-- Host `example.com` lists the mirror `localhost` and the mirror `mirror.local`,
neither of which has an entry. -/
def bareMirrorConfigs : ConfigMap := fun k =>
  if k = "example.com" then
    some { RegistryConfig.zero with Mirrors := ["localhost", "mirror.local"] }
  else none

/-- A configuration with one root CA and one key pair. -/
def caAndPair : RegistryConfig :=
  { RegistryConfig.zero with
    RootCAs := [utf8 "-ca-"]
    KeyPairs := [{ Key := utf8 "key", Certificate := utf8 "cert" }] }

/-- A base endpoint whose own client already skips verification. -/
def insecureBase : RegistryHost :=
  { originTemplate "example.com" with
    Client := some (newTLSClient { InsecureSkipVerify := true }) }

end Resolver

/-! ## Build references of the history tests (`tests/history.go`) -/

namespace Tests

/-- Go `string`, for text that is valid UTF-8 (here it comes out of `json.Unmarshal`). -/
abbrev GoString := String

/-- Type `buildRef` (tests/history.go:179). -/
structure buildRef where
  Builder : String
  Node : String
  Ref : String
deriving DecidableEq, Repr

/-- Method `buildRef.String` (tests/history.go:185). -/
def buildRef.String (b : buildRef) : GoString :=
  b.Builder ++ "/" ++ b.Node ++ "/" ++ b.Ref

/-- Go `strings.Split` for a separator of one character, on the characters of the
string: the pieces between the occurrences of `sep`, one more than there are
occurrences. -/
def splitChars (sep : Char) : List Char → List (List Char)
  | [] => [[]]
  | ch :: rest =>
    if ch = sep then [] :: splitChars sep rest
    else
      match splitChars sep rest with
      | [] => [[ch]]
      | piece :: pieces => (ch :: piece) :: pieces

/-- Go `strings.Split(s, sep)` for a separator of one character. -/
def Split (s : GoString) (sep : Char) : List GoString :=
  (splitChars sep s.data).map String.mk

/-- Lines 207-212 of `buildTestProject`: the reference read off `md.BuildRef`, and
`none` when `require.Len(t, refParts, 3)` stops the test. -/
def buildTestProject.parse (BuildRef : GoString) : Option buildRef :=
  match Split BuildRef '/' with
  | [builder, node, ref] => some { Builder := builder, Node := node, Ref := ref }
  | _ => none

end Tests

namespace Resolver

/-! ## Lemmas on the trust context builder -/

theorem loadKeyPairs_skipVerify (P : Platform) (kps : List TLSKeyPair) :
    ∀ (tc tc' : TLSConfig), loadKeyPairs P kps tc = .ok tc' →
      tc'.InsecureSkipVerify = tc.InsecureSkipVerify := by
  induction kps with
  | nil =>
    intro tc tc' h
    simp only [loadKeyPairs, Except.ok.injEq] at h
    rw [h]
  | cons kp rest ih =>
    intro tc tc' h
    simp only [loadKeyPairs] at h
    cases hk : P.X509KeyPair kp.Certificate kp.Key with
    | error err => rw [hk] at h; cases h
    | ok cert =>
      rw [hk] at h
      have e := ih _ _ h
      rw [e]

theorem foldl_appendRootCA_skipVerify (P : Platform) (cas : List Bytes) :
    ∀ tc : TLSConfig,
      (cas.foldl (appendRootCA P) tc).InsecureSkipVerify = tc.InsecureSkipVerify := by
  induction cas with
  | nil => intro tc; rfl
  | cons p rest ih =>
    intro tc
    rw [List.foldl_cons, ih]
    rfl

/-- A trust context comes out of `loadTLSConfig` with verification enabled. -/
theorem loadTLSConfig_skipVerify (P : Platform) (c : RegistryConfig) (tc : TLSConfig)
    (h : loadTLSConfig P c = .ok tc) : tc.InsecureSkipVerify = false := by
  unfold loadTLSConfig at h
  simp only at h
  split at h
  · cases h
  · rename_i tc0 h0
    have e1 := loadKeyPairs_skipVerify P _ _ _ h
    rw [foldl_appendRootCA_skipVerify] at e1
    rw [e1]
    split at h0
    · split at h0
      · cases h0; rfl
      · split at h0
        · cases h0; rfl
        · cases h0
    · cases h0; rfl

/-! ## Lemmas on the expander -/

/-- The result of `fillInsecureOpts` in closed form, given the trust context. -/
theorem fillInsecureOpts_of_load (P : Platform) (host : String) (c : RegistryConfig)
    (h : RegistryHost) (tc : TLSConfig) (htc : loadTLSConfig P c = .ok tc) :
    fillInsecureOpts P host c h = .ok
      ((if c.PlainHTTP = some true ∨ (c.PlainHTTP = none ∧ P.MatchLocalhost host = true)
          then [{ h with Scheme := "http" }] else []) ++
       (if c.Insecure = some true
          then [{ h with Client := some (newTLSClient { tc with InsecureSkipVerify := true }) }]
          else []) ++
       (if ¬ (c.PlainHTTP = some true ∨ (c.PlainHTTP = none ∧ P.MatchLocalhost host = true))
            ∧ c.Insecure ≠ some true
          then [{ h with Client := some (newTLSClient tc) }] else [])) := by
  unfold fillInsecureOpts
  rw [htc]
  rcases hp : c.PlainHTTP with _ | _ | _ <;> rcases hl : P.MatchLocalhost host with _ | _ <;>
    by_cases hi : c.Insecure = some true <;>
    simp [hi, PendingHost.resolve]

theorem fillInsecureOpts_error_iff (P : Platform) (host : String) (c : RegistryConfig)
    (h : RegistryHost) (err : GoError) :
    fillInsecureOpts P host c h = .error err ↔ loadTLSConfig P c = .error err := by
  unfold fillInsecureOpts
  cases loadTLSConfig P c with
  | error e => simp
  | ok tc => simp

/-! ## Lemmas on the host resolver -/

theorem mirrorLoop_ok_iff (P : Platform) (m : ConfigMap) (ms : List String) :
    ∀ (out r : List RegistryHost),
      mirrorLoop P m ms out = .ok r ↔
        ∃ per : List (List RegistryHost),
          List.Forall₂
            (fun mirror hosts =>
              fillInsecureOpts P mirror (m.index mirror) (mirrorTemplate mirror) = .ok hosts)
            ms per ∧
          r = out ++ per.flatten := by
  induction ms with
  | nil =>
    intro out r
    simp only [mirrorLoop, Except.ok.injEq]
    constructor
    · intro h
      exact ⟨[], List.Forall₂.nil, by simp [h]⟩
    · rintro ⟨per, hper, hr⟩
      cases hper
      simp [hr]
  | cons mirror rest ih =>
    intro out r
    simp only [mirrorLoop]
    cases hf : fillInsecureOpts P mirror (m.index mirror) (mirrorTemplate mirror) with
    | error err =>
      constructor
      · intro h; cases h
      · rintro ⟨per, hper, -⟩
        cases hper with
        | cons h1 _ => rw [hf] at h1; cases h1
    | ok hosts =>
      simp only
      rw [ih]
      constructor
      · rintro ⟨per, hper, hr⟩
        exact ⟨hosts :: per, List.Forall₂.cons hf hper, by simp [hr]⟩
      · rintro ⟨per, hper, hr⟩
        cases hper with
        | cons h1 h2 =>
          rw [hf] at h1
          cases h1
          exact ⟨_, h2, by simp [hr]⟩

theorem mirrorLoop_error_iff (P : Platform) (m : ConfigMap) (ms : List String) :
    ∀ out : List RegistryHost,
      (∃ err, mirrorLoop P m ms out = .error err) ↔
        ∃ mirror ∈ ms, ∃ err, loadTLSConfig P (m.index mirror) = .error err := by
  induction ms with
  | nil =>
    intro out
    simp [mirrorLoop]
  | cons mirror rest ih =>
    intro out
    simp only [mirrorLoop]
    cases hf : fillInsecureOpts P mirror (m.index mirror) (mirrorTemplate mirror) with
    | error err =>
      have hl := (fillInsecureOpts_error_iff P _ _ _ err).mp hf
      constructor
      · intro _
        exact ⟨mirror, List.mem_cons_self _ _, err, hl⟩
      · intro _
        exact ⟨err, rfl⟩
    | ok hosts =>
      simp only
      rw [ih]
      constructor
      · rintro ⟨mir, hmem, e, he⟩
        exact ⟨mir, List.mem_cons_of_mem _ hmem, e, he⟩
      · rintro ⟨mir, hmem, e, he⟩
        rcases List.mem_cons.mp hmem with rfl | hmem
        · have := (fillInsecureOpts_error_iff P mir (m.index mir) (mirrorTemplate mir) e).mpr he
          rw [hf] at this
          cases this
        · exact ⟨mir, hmem, e, he⟩

theorem callback_of_entry (P : Platform) (m : ConfigMap) (host : String) (c : RegistryConfig)
    (hc : m host = some c) :
    NewRegistryConfig.callback P m host =
      match mirrorLoop P m c.Mirrors [] with
      | .error err => .error err
      | .ok out =>
        match fillInsecureOpts P (if host = "docker.io" then "registry-1.docker.io" else host) c
            (originTemplate (if host = "docker.io" then "registry-1.docker.io" else host)) with
        | .error err => .error err
        | .ok hosts => .ok (out ++ hosts) := by
  unfold NewRegistryConfig.callback
  rw [hc]

theorem callback_ok_iff (P : Platform) (m : ConfigMap) (host : String) (c : RegistryConfig)
    (hc : m host = some c) (out : List RegistryHost) :
    NewRegistryConfig.callback P m host = .ok out ↔
      ∃ fromMirrors fromOrigin : List RegistryHost,
        mirrorLoop P m c.Mirrors [] = .ok fromMirrors ∧
        fillInsecureOpts P (if host = "docker.io" then "registry-1.docker.io" else host) c
            (originTemplate (if host = "docker.io" then "registry-1.docker.io" else host))
          = .ok fromOrigin ∧
        out = fromMirrors ++ fromOrigin := by
  rw [callback_of_entry P m host c hc]
  cases hm : mirrorLoop P m c.Mirrors [] with
  | error err => simp
  | ok mp =>
    cases hf : fillInsecureOpts P (if host = "docker.io" then "registry-1.docker.io" else host) c
        (originTemplate (if host = "docker.io" then "registry-1.docker.io" else host)) with
    | error err => simp
    | ok op =>
      simp only [Except.ok.injEq]
      constructor
      · intro h
        exact ⟨mp, op, rfl, rfl, h.symm⟩
      · rintro ⟨a, b, ha, hb, hout⟩
        rw [hout, ha, hb]

/-! ## Further lemmas shared by the results below -/

theorem fillInsecureOpts_ok_load (P : Platform) (host : String) (c : RegistryConfig)
    (h : RegistryHost) (out : List RegistryHost)
    (hout : fillInsecureOpts P host c h = .ok out) :
    ∃ tc, loadTLSConfig P c = .ok tc := by
  cases hl : loadTLSConfig P c with
  | ok tc => exact ⟨tc, rfl⟩
  | error err =>
    rw [(fillInsecureOpts_error_iff P host c h err).mpr hl] at hout
    cases hout

/-- Every variant is the base endpoint up to scheme and client. -/
theorem fillInsecureOpts_keeps (P : Platform) (host : String) (c : RegistryConfig)
    (h : RegistryHost) (out : List RegistryHost)
    (hout : fillInsecureOpts P host c h = .ok out) :
    ∀ e ∈ out, e.Host = h.Host ∧ e.Path = h.Path ∧ e.Capabilities = h.Capabilities := by
  obtain ⟨tc, htc⟩ := fillInsecureOpts_ok_load P host c h out hout
  rw [fillInsecureOpts_of_load P host c h tc htc] at hout
  cases hout
  intro e he
  simp only [List.mem_append] at he
  rcases he with (he | he) | he <;>
    · split at he
      · simp only [List.mem_singleton] at he
        rw [he]
        exact ⟨rfl, rfl, rfl⟩
      · cases he

theorem fillInsecureOpts_ne_nil (P : Platform) (host : String) (c : RegistryConfig)
    (h : RegistryHost) (out : List RegistryHost)
    (hout : fillInsecureOpts P host c h = .ok out) : out ≠ [] := by
  obtain ⟨tc, htc⟩ := fillInsecureOpts_ok_load P host c h out hout
  rw [fillInsecureOpts_of_load P host c h tc htc] at hout
  cases hout
  by_cases hp : c.PlainHTTP = some true ∨ (c.PlainHTTP = none ∧ P.MatchLocalhost host = true)
  · simp [hp]
  · by_cases hi : c.Insecure = some true
    · simp [hi]
    · simp [hp, hi]

theorem mirrorLoop_capabilities (P : Platform) (m : ConfigMap) (ms : List String) :
    ∀ (out r : List RegistryHost), mirrorLoop P m ms out = .ok r →
      (∀ e ∈ out, e.Capabilities = HostCapabilityPull ||| HostCapabilityResolve) →
      ∀ e ∈ r, e.Capabilities = HostCapabilityPull ||| HostCapabilityResolve := by
  induction ms with
  | nil =>
    intro out r h hout
    simp only [mirrorLoop, Except.ok.injEq] at h
    rw [← h]
    exact hout
  | cons mirror rest ih =>
    intro out r h hout
    simp only [mirrorLoop] at h
    cases hf : fillInsecureOpts P mirror (m.index mirror) (mirrorTemplate mirror) with
    | error err => rw [hf] at h; cases h
    | ok hosts =>
      rw [hf] at h
      refine ih _ _ h ?_
      intro e he
      rcases List.mem_append.mp he with he | he
      · exact hout e he
      · exact (fillInsecureOpts_keeps P _ _ _ _ hf e he).2.2

theorem mirrorLoop_error_from (P : Platform) (m : ConfigMap) (ms : List String) :
    ∀ (out : List RegistryHost) (err : GoError), mirrorLoop P m ms out = .error err →
      ∃ mirror ∈ ms, loadTLSConfig P (m.index mirror) = .error err := by
  induction ms with
  | nil =>
    intro out err h
    simp [mirrorLoop] at h
  | cons mirror rest ih =>
    intro out err h
    simp only [mirrorLoop] at h
    cases hf : fillInsecureOpts P mirror (m.index mirror) (mirrorTemplate mirror) with
    | error e =>
      rw [hf] at h
      cases h
      exact ⟨mirror, List.mem_cons_self _ _, (fillInsecureOpts_error_iff P _ _ _ _).mp hf⟩
    | ok hosts =>
      rw [hf] at h
      obtain ⟨mir, hmem, he⟩ := ih _ _ h
      exact ⟨mir, List.mem_cons_of_mem _ hmem, he⟩

/-! ## Results on the host resolver -/

/-- C1: for a host that has an entry `c`, a successful resolution returns the variants
of each mirror of `c.Mirrors`, in listed order, each expanded by `fillInsecureOpts` with
the mirror's own entry `m[mirror]` and the mirror template, followed by the variants
of the origin host expanded with `c` and the origin template; with no mirrors the
result is exactly the origin-host variants. -/
theorem callback_eq_mirrors_then_origin (P : Platform) (m : ConfigMap) (host : String)
    (c : RegistryConfig) (out : List RegistryHost)
    (hc : m host = some c) (hout : NewRegistryConfig.callback P m host = .ok out) :
    ∃ (perMirror : List (List RegistryHost)) (fromOrigin : List RegistryHost),
      List.Forall₂
        (fun mirror hosts =>
          fillInsecureOpts P mirror (m.index mirror) (mirrorTemplate mirror) = .ok hosts)
        c.Mirrors perMirror ∧
      fillInsecureOpts P (if host = "docker.io" then "registry-1.docker.io" else host) c
          (originTemplate (if host = "docker.io" then "registry-1.docker.io" else host))
        = .ok fromOrigin ∧
      out = perMirror.flatten ++ fromOrigin ∧
      (c.Mirrors = [] → out = fromOrigin) := by
  obtain ⟨fromMirrors, fromOrigin, hm, ho, hcat⟩ := (callback_ok_iff P m host c hc out).mp hout
  obtain ⟨per, hper, hflat⟩ := (mirrorLoop_ok_iff P m c.Mirrors [] fromMirrors).mp hm
  refine ⟨per, fromOrigin, hper, ho, ?_, ?_⟩
  · rw [hcat, hflat, List.nil_append]
  · intro hnil
    rw [hnil] at hper
    cases hper
    rw [hcat, hflat]
    rfl

/-- Scenario A of the specification: `example.com` behind `mirror.local`, resolved on the Linux platform. -/
theorem callback_eq_mirrors_then_origin_witness :
    mirroredConfigs "example.com" = some { RegistryConfig.zero with Mirrors := ["mirror.local"] } ∧
    NewRegistryConfig.callback linuxPlatform mirroredConfigs "example.com" = .ok mirroredResult ∧
    ∃ (perMirror : List (List RegistryHost)) (fromOrigin : List RegistryHost),
      List.Forall₂
        (fun mirror hosts =>
          fillInsecureOpts linuxPlatform mirror (mirroredConfigs.index mirror)
            (mirrorTemplate mirror) = .ok hosts)
        ["mirror.local"] perMirror ∧
      fillInsecureOpts linuxPlatform
          (if "example.com" = "docker.io" then "registry-1.docker.io" else "example.com")
          { RegistryConfig.zero with Mirrors := ["mirror.local"] }
          (originTemplate
            (if "example.com" = "docker.io" then "registry-1.docker.io" else "example.com"))
        = .ok fromOrigin ∧
      mirroredResult = perMirror.flatten ++ fromOrigin ∧
      (["mirror.local"] = [] → mirroredResult = fromOrigin) :=
  ⟨by decide, by decide,
    callback_eq_mirrors_then_origin linuxPlatform mirroredConfigs "example.com"
      { RegistryConfig.zero with Mirrors := ["mirror.local"] } mirroredResult
      (by decide) (by decide)⟩

/-- C2: when the trust context of `c` builds to `tc` and the base endpoint `h` has
scheme https, `fillInsecureOpts` returns, in this order: the base with scheme http if
plaintext is eligible (`PlainHTTP` true, or unset with a localhost-like address); the
base with scheme https and a client over `tc` with verification disabled if `Insecure`
is true; and, only if neither was emitted, the base with scheme https and a client
over `tc` with verification enabled.  Every variant keeps the host, path and
capabilities of the base. -/
theorem fillInsecureOpts_variants (P : Platform) (host : String) (c : RegistryConfig)
    (h : RegistryHost) (tc : TLSConfig)
    (htc : loadTLSConfig P c = .ok tc) (hs : h.Scheme = "https") :
    ∃ out : List RegistryHost,
      fillInsecureOpts P host c h = .ok out ∧
      out =
        (if c.PlainHTTP = some true ∨ (c.PlainHTTP = none ∧ P.MatchLocalhost host = true)
          then [{ h with Scheme := "http" }] else []) ++
        (if c.Insecure = some true
          then [{ h with
                  Scheme := "https"
                  Client := some (newTLSClient { tc with InsecureSkipVerify := true }) }]
          else []) ++
        (if ¬ (c.PlainHTTP = some true ∨ (c.PlainHTTP = none ∧ P.MatchLocalhost host = true))
              ∧ c.Insecure ≠ some true
          then [{ h with
                  Scheme := "https"
                  Client := some (newTLSClient { tc with InsecureSkipVerify := false }) }]
          else []) ∧
      (∀ e ∈ out, e.Host = h.Host ∧ e.Path = h.Path ∧ e.Capabilities = h.Capabilities) := by
  have hf := fillInsecureOpts_of_load P host c h tc htc
  have hv := loadTLSConfig_skipVerify P c tc htc
  refine ⟨_, hf, ?_, fillInsecureOpts_keeps P host c h _ hf⟩
  have e1 : ({ h with Client := some (newTLSClient { tc with InsecureSkipVerify := true }) }
      : RegistryHost) =
      { h with
        Scheme := "https"
        Client := some (newTLSClient { tc with InsecureSkipVerify := true }) } := by
    rw [← hs]
  have e2 : ({ h with Client := some (newTLSClient tc) } : RegistryHost) =
      { h with
        Scheme := "https"
        Client := some (newTLSClient { tc with InsecureSkipVerify := false }) } := by
    rw [← hs, ← hv]
  rw [e1, e2]

/-- Scenario B of the specification: `registry.internal` with only `Insecure` set gives the single https endpoint with verification disabled. -/
theorem fillInsecureOpts_variants_witness :
    loadTLSConfig linuxPlatform insecureOnly = .ok {} ∧
    (originTemplate "registry.internal").Scheme = "https" ∧
    fillInsecureOpts linuxPlatform "registry.internal" insecureOnly
        (originTemplate "registry.internal") =
      .ok [{ originTemplate "registry.internal" with
              Client := some (newTLSClient { InsecureSkipVerify := true }) }] := by
  refine ⟨by decide, by decide, ?_⟩
  obtain ⟨out, hout, heq, -⟩ :=
    fillInsecureOpts_variants linuxPlatform "registry.internal" insecureOnly
      (originTemplate "registry.internal") {} (by decide) (by decide)
  rw [hout, heq]
  decide

/-- C3: when resolving a configured host succeeds, every endpoint that comes from the
mirror loop has capabilities exactly Pull and Resolve, without Push, and every endpoint
that comes from the origin host has capabilities exactly Push, Pull and Resolve. -/
theorem callback_capabilities (P : Platform) (m : ConfigMap) (host : String)
    (c : RegistryConfig) (out : List RegistryHost)
    (hc : m host = some c) (hout : NewRegistryConfig.callback P m host = .ok out) :
    ∃ fromMirrors fromOrigin : List RegistryHost,
      mirrorLoop P m c.Mirrors [] = .ok fromMirrors ∧
      fillInsecureOpts P (if host = "docker.io" then "registry-1.docker.io" else host) c
          (originTemplate (if host = "docker.io" then "registry-1.docker.io" else host))
        = .ok fromOrigin ∧
      out = fromMirrors ++ fromOrigin ∧
      (∀ e ∈ fromMirrors,
        e.Capabilities = HostCapabilityPull ||| HostCapabilityResolve ∧
        HostCapabilities.Has e.Capabilities HostCapabilityPull = true ∧
        HostCapabilities.Has e.Capabilities HostCapabilityResolve = true ∧
        HostCapabilities.Has e.Capabilities HostCapabilityPush = false) ∧
      (∀ e ∈ fromOrigin,
        e.Capabilities = HostCapabilityPush ||| HostCapabilityPull ||| HostCapabilityResolve ∧
        HostCapabilities.Has e.Capabilities HostCapabilityPull = true ∧
        HostCapabilities.Has e.Capabilities HostCapabilityResolve = true ∧
        HostCapabilities.Has e.Capabilities HostCapabilityPush = true) := by
  obtain ⟨fromMirrors, fromOrigin, hm, ho, hcat⟩ := (callback_ok_iff P m host c hc out).mp hout
  refine ⟨fromMirrors, fromOrigin, hm, ho, hcat, ?_, ?_⟩
  · intro e he
    have hcap := mirrorLoop_capabilities P m c.Mirrors [] fromMirrors hm
      (fun e he => by cases he) e he
    rw [hcap]
    decide
  · intro e he
    have hcap := (fillInsecureOpts_keeps P _ _ _ _ ho e he).2.2
    have hlit : ∀ x : String, (originTemplate x).Capabilities =
        HostCapabilityPush ||| HostCapabilityPull ||| HostCapabilityResolve := fun _ => rfl
    rw [hcap, hlit]
    decide

/-- Capabilities of the two endpoints of scenario A. -/
theorem callback_capabilities_witness :
    mirroredConfigs "example.com" = some { RegistryConfig.zero with Mirrors := ["mirror.local"] } ∧
    NewRegistryConfig.callback linuxPlatform mirroredConfigs "example.com" = .ok mirroredResult ∧
    ∃ fromMirrors fromOrigin : List RegistryHost,
      mirrorLoop linuxPlatform mirroredConfigs ["mirror.local"] [] = .ok fromMirrors ∧
      fillInsecureOpts linuxPlatform
          (if "example.com" = "docker.io" then "registry-1.docker.io" else "example.com")
          { RegistryConfig.zero with Mirrors := ["mirror.local"] }
          (originTemplate
            (if "example.com" = "docker.io" then "registry-1.docker.io" else "example.com"))
        = .ok fromOrigin ∧
      mirroredResult = fromMirrors ++ fromOrigin ∧
      (∀ e ∈ fromMirrors,
        e.Capabilities = HostCapabilityPull ||| HostCapabilityResolve ∧
        HostCapabilities.Has e.Capabilities HostCapabilityPull = true ∧
        HostCapabilities.Has e.Capabilities HostCapabilityResolve = true ∧
        HostCapabilities.Has e.Capabilities HostCapabilityPush = false) ∧
      (∀ e ∈ fromOrigin,
        e.Capabilities = HostCapabilityPush ||| HostCapabilityPull ||| HostCapabilityResolve ∧
        HostCapabilities.Has e.Capabilities HostCapabilityPull = true ∧
        HostCapabilities.Has e.Capabilities HostCapabilityResolve = true ∧
        HostCapabilities.Has e.Capabilities HostCapabilityPush = true) :=
  ⟨by decide, by decide,
    callback_capabilities linuxPlatform mirroredConfigs "example.com"
      { RegistryConfig.zero with Mirrors := ["mirror.local"] } mirroredResult
      (by decide) (by decide)⟩

/-- C4: for a host with no entry in the configuration map, whatever the map holds
otherwise, the resolver function returns the empty list and no error. -/
theorem callback_no_entry (P : Platform) (m : ConfigMap) (host : String)
    (hc : m host = none) :
    NewRegistryConfig.callback P m host = .ok [] := by
  unfold NewRegistryConfig.callback
  rw [hc]

/-- Scenario C of the specification: `docker.io` without an entry, in a map that has other entries. -/
theorem callback_no_entry_witness :
    mirroredConfigs "docker.io" = none ∧
    NewRegistryConfig.callback linuxPlatform mirroredConfigs "docker.io" = .ok [] :=
  ⟨by decide, callback_no_entry linuxPlatform mirroredConfigs "docker.io" (by decide)⟩

/-- C5: for a configured host, if the trust context fails to build for the entry of
some mirror or for the host's own entry, the resolver function returns an error, which
carries no endpoint list, however many earlier mirrors were expanded; and any error it
returns is the error of one of those trust-context builds. -/
theorem callback_error_iff (P : Platform) (m : ConfigMap) (host : String)
    (c : RegistryConfig) (hc : m host = some c) :
    (((∃ mirror ∈ c.Mirrors, ∃ err, loadTLSConfig P (m.index mirror) = .error err) ∨
        (∃ err, loadTLSConfig P c = .error err)) →
      ∃ err, NewRegistryConfig.callback P m host = .error err) ∧
    (∀ err, NewRegistryConfig.callback P m host = .error err →
      (∃ mirror ∈ c.Mirrors, loadTLSConfig P (m.index mirror) = .error err) ∨
        loadTLSConfig P c = .error err) := by
  rw [callback_of_entry P m host c hc]
  constructor
  · intro hfail
    cases hm : mirrorLoop P m c.Mirrors [] with
    | error err => exact ⟨err, rfl⟩
    | ok fromMirrors =>
      simp only
      rcases hfail with hmir | ⟨err, herr⟩
      · obtain ⟨err, herr⟩ := (mirrorLoop_error_iff P m c.Mirrors []).mpr hmir
        rw [hm] at herr
        cases herr
      · rw [(fillInsecureOpts_error_iff P _ c _ err).mpr herr]
        exact ⟨err, rfl⟩
  · intro err h
    cases hm : mirrorLoop P m c.Mirrors [] with
    | error e =>
      rw [hm] at h
      cases h
      exact Or.inl (mirrorLoop_error_from P m c.Mirrors [] _ hm)
    | ok fromMirrors =>
      rw [hm] at h
      simp only at h
      cases hf : fillInsecureOpts P (if host = "docker.io" then "registry-1.docker.io" else host)
          c (originTemplate (if host = "docker.io" then "registry-1.docker.io" else host)) with
      | error e =>
        rw [hf] at h
        cases h
        exact Or.inr ((fillInsecureOpts_error_iff P _ c _ _).mp hf)
      | ok hosts =>
        rw [hf] at h
        cases h

/-- Two mirrors, the first expands and the second has a key pair that does not parse: the resolution is an error. -/
theorem callback_error_iff_witness :
    brokenMirrorConfigs "example.com" =
      some { RegistryConfig.zero with Mirrors := ["mirror.local", "broken.local"] } ∧
    (∃ hosts, fillInsecureOpts linuxPlatform "mirror.local"
        (brokenMirrorConfigs.index "mirror.local") (mirrorTemplate "mirror.local") = .ok hosts) ∧
    (∃ err, loadTLSConfig linuxPlatform (brokenMirrorConfigs.index "broken.local") = .error err) ∧
    ∃ err, NewRegistryConfig.callback linuxPlatform brokenMirrorConfigs "example.com"
      = .error err :=
  ⟨by decide, ⟨_, rfl⟩, ⟨_, rfl⟩,
    (callback_error_iff linuxPlatform brokenMirrorConfigs "example.com"
      { RegistryConfig.zero with Mirrors := ["mirror.local", "broken.local"] }
      (by decide)).1
      (Or.inl ⟨"broken.local", by decide, _, rfl⟩)⟩

/-- C6: resolving a configured `docker.io` expands the origin with the entry stored
under `docker.io` but with host `registry-1.docker.io`, so that every origin-host
endpoint has `Host = "registry-1.docker.io"`; resolving any other configured host
gives origin-host endpoints whose `Host` is the logical host itself. -/
theorem callback_origin_host (P : Platform) (m : ConfigMap) (host : String)
    (c : RegistryConfig) (out : List RegistryHost)
    (hc : m host = some c) (hout : NewRegistryConfig.callback P m host = .ok out) :
    ∃ fromMirrors fromOrigin : List RegistryHost,
      mirrorLoop P m c.Mirrors [] = .ok fromMirrors ∧
      out = fromMirrors ++ fromOrigin ∧
      fromOrigin ≠ [] ∧
      (host = "docker.io" →
        fillInsecureOpts P "registry-1.docker.io" c (originTemplate "registry-1.docker.io")
          = .ok fromOrigin ∧
        ∀ e ∈ fromOrigin, e.Host = "registry-1.docker.io") ∧
      (host ≠ "docker.io" →
        fillInsecureOpts P host c (originTemplate host) = .ok fromOrigin ∧
        ∀ e ∈ fromOrigin, e.Host = host) := by
  obtain ⟨fromMirrors, fromOrigin, hm, ho, hcat⟩ := (callback_ok_iff P m host c hc out).mp hout
  refine ⟨fromMirrors, fromOrigin, hm, hcat, fillInsecureOpts_ne_nil P _ _ _ _ ho, ?_, ?_⟩
  · intro hd
    rw [if_pos hd] at ho
    exact ⟨ho, fun e he => (fillInsecureOpts_keeps P _ _ _ _ ho e he).1⟩
  · intro hd
    rw [if_neg hd] at ho
    exact ⟨ho, fun e he => (fillInsecureOpts_keeps P _ _ _ _ ho e he).1⟩

/-- A configured `docker.io` resolves to an endpoint on `registry-1.docker.io`. -/
theorem callback_origin_host_witness :
    dockerConfigs "docker.io" = some insecureOnly ∧
    NewRegistryConfig.callback linuxPlatform dockerConfigs "docker.io" = .ok dockerResult ∧
    ∃ fromMirrors fromOrigin : List RegistryHost,
      mirrorLoop linuxPlatform dockerConfigs insecureOnly.Mirrors [] = .ok fromMirrors ∧
      dockerResult = fromMirrors ++ fromOrigin ∧
      fromOrigin ≠ [] ∧
      ("docker.io" = "docker.io" →
        fillInsecureOpts linuxPlatform "registry-1.docker.io" insecureOnly
          (originTemplate "registry-1.docker.io") = .ok fromOrigin ∧
        ∀ e ∈ fromOrigin, e.Host = "registry-1.docker.io") ∧
      ("docker.io" ≠ "docker.io" →
        fillInsecureOpts linuxPlatform "docker.io" insecureOnly (originTemplate "docker.io")
          = .ok fromOrigin ∧
        ∀ e ∈ fromOrigin, e.Host = "docker.io") :=
  ⟨by decide, by decide,
    callback_origin_host linuxPlatform dockerConfigs "docker.io" insecureOnly dockerResult
      (by decide) (by decide)⟩

/-! ## Results on the expander -/

/-- C7 as stated fails: on `localhost` with `Insecure` true and `PlainHTTP` unset, the
trust context builds and the base has scheme https, yet the result starts with an
http variant. -/
theorem insecure_unset_plain_localhost_has_http :
    insecureOnly.Insecure = some true ∧
    insecureOnly.PlainHTTP = none ∧
    loadTLSConfig linuxPlatform insecureOnly = .ok {} ∧
    (originTemplate "localhost").Scheme = "https" ∧
    fillInsecureOpts linuxPlatform "localhost" insecureOnly (originTemplate "localhost") =
      .ok [{ originTemplate "localhost" with Scheme := "http" },
           { originTemplate "localhost" with
              Client := some (newTLSClient { InsecureSkipVerify := true }) }] ∧
    ¬ (∀ out, fillInsecureOpts linuxPlatform "localhost" insecureOnly
          (originTemplate "localhost") = .ok out →
        ∀ e ∈ out, e.Scheme ≠ "http") := by
  refine ⟨by decide, by decide, by decide, by decide, by decide, ?_⟩
  intro hall
  exact hall _ rfl { originTemplate "localhost" with Scheme := "http" }
    (List.mem_cons_self _ _) rfl

/-- C7, amended: with `Insecure` true and `PlainHTTP` unset or false, a trust context
that builds and a base of scheme https, the variants include exactly one https variant
with verification disabled; and they include no http variant when `PlainHTTP` is false
or the host address does not match the localhost pattern. -/
theorem insecure_without_plain (P : Platform) (host : String) (c : RegistryConfig)
    (h : RegistryHost) (tc : TLSConfig)
    (hi : c.Insecure = some true)
    (hp : c.PlainHTTP = none ∨ c.PlainHTTP = some false)
    (htc : loadTLSConfig P c = .ok tc) (hs : h.Scheme = "https") :
    ∃ out : List RegistryHost,
      fillInsecureOpts P host c h = .ok out ∧
      (out.filter (fun e => decide (e.Scheme = "https") && e.verificationDisabled)).length = 1 ∧
      ((c.PlainHTTP = some false ∨ P.MatchLocalhost host = false) →
        ∀ e ∈ out, e.Scheme ≠ "http") := by
  refine ⟨_, fillInsecureOpts_of_load P host c h tc htc, ?_, ?_⟩
  · rcases hp with hp | hp <;> rcases hl : P.MatchLocalhost host with _ | _ <;>
      simp [hp, hi, hs, RegistryHost.verificationDisabled, RegistryHost.tlsConfig,
        newTLSClient]
  · intro hno
    have hne : ¬ (c.PlainHTTP = some true ∨ (c.PlainHTTP = none ∧ P.MatchLocalhost host = true)) := by
      rcases hno with hno | hno
      · simp [hno]
      · simp [hno]
        rcases hp with hp | hp <;> simp [hp]
    simp [hne, hi, hs]

/-- On `registry.internal` with only `Insecure` set there is one https variant without verification and no http variant. -/
theorem insecure_without_plain_witness :
    insecureOnly.Insecure = some true ∧
    (insecureOnly.PlainHTTP = none ∨ insecureOnly.PlainHTTP = some false) ∧
    loadTLSConfig linuxPlatform insecureOnly = .ok {} ∧
    (originTemplate "registry.internal").Scheme = "https" ∧
    ∃ out : List RegistryHost,
      fillInsecureOpts linuxPlatform "registry.internal" insecureOnly
          (originTemplate "registry.internal") = .ok out ∧
      (out.filter (fun e => decide (e.Scheme = "https") && e.verificationDisabled)).length = 1 ∧
      ((insecureOnly.PlainHTTP = some false ∨
          linuxPlatform.MatchLocalhost "registry.internal" = false) →
        ∀ e ∈ out, e.Scheme ≠ "http") :=
  ⟨by decide, by decide, by decide, by decide,
    insecure_without_plain linuxPlatform "registry.internal" insecureOnly
      (originTemplate "registry.internal") {} (by decide) (by decide) (by decide) (by decide)⟩

/-- C8 as stated fails: on `localhost` with both flags unset, the trust context builds
and the base has scheme https, yet the single variant returned has scheme http and
keeps the base client, which carries no trust context. -/
theorem unset_flags_localhost_is_http :
    RegistryConfig.zero.PlainHTTP = none ∧
    RegistryConfig.zero.Insecure = none ∧
    loadTLSConfig linuxPlatform RegistryConfig.zero = .ok {} ∧
    (originTemplate "localhost").Scheme = "https" ∧
    fillInsecureOpts linuxPlatform "localhost" RegistryConfig.zero (originTemplate "localhost") =
      .ok [{ originTemplate "localhost" with Scheme := "http" }] ∧
    ¬ (∃ e, fillInsecureOpts linuxPlatform "localhost" RegistryConfig.zero
          (originTemplate "localhost") = .ok [e] ∧
        e.Scheme = "https" ∧ e.verificationEnabled = true) := by
  refine ⟨by decide, by decide, by decide, by decide, by decide, ?_⟩
  rintro ⟨e, he, hsch, -⟩
  have hval : fillInsecureOpts linuxPlatform "localhost" RegistryConfig.zero
      (originTemplate "localhost") =
      .ok [{ originTemplate "localhost" with Scheme := "http" }] := by decide
  rw [hval] at he
  cases he
  exact absurd hsch (by decide)

/-- C8, amended: with both `PlainHTTP` and `Insecure` unset or false, a trust context
`tc` that builds and a base of scheme https, exactly one variant is returned; when
`PlainHTTP` is false or the host address does not match the localhost pattern, it is
the https variant whose client carries `tc` with verification enabled. -/
theorem default_flags_single_variant (P : Platform) (host : String) (c : RegistryConfig)
    (h : RegistryHost) (tc : TLSConfig)
    (hp : c.PlainHTTP = none ∨ c.PlainHTTP = some false)
    (hi : c.Insecure = none ∨ c.Insecure = some false)
    (htc : loadTLSConfig P c = .ok tc) (hs : h.Scheme = "https") :
    ∃ e : RegistryHost,
      fillInsecureOpts P host c h = .ok [e] ∧
      ((c.PlainHTTP = some false ∨ P.MatchLocalhost host = false) →
        e = { h with Client := some (newTLSClient tc) } ∧
        e.Scheme = "https" ∧
        e.tlsConfig = some tc ∧
        e.verificationEnabled = true) := by
  have hv := loadTLSConfig_skipVerify P c tc htc
  have hi' : c.Insecure ≠ some true := by
    rcases hi with hi | hi <;> simp [hi]
  rw [fillInsecureOpts_of_load P host c h tc htc]
  by_cases hpl : c.PlainHTTP = some true ∨ (c.PlainHTTP = none ∧ P.MatchLocalhost host = true)
  · refine ⟨{ h with Scheme := "http" }, by simp [hpl, hi'], ?_⟩
    intro hno
    exfalso
    rcases hpl with hpl | ⟨hpl, hl⟩
    · rcases hp with hp | hp <;> simp [hp] at hpl
    · rcases hno with hno | hno
      · simp [hno] at hpl
      · simp [hno] at hl
  · refine ⟨{ h with Client := some (newTLSClient tc) }, by simp [hpl, hi'], ?_⟩
    intro _
    refine ⟨rfl, hs, rfl, ?_⟩
    simp [RegistryHost.verificationEnabled, RegistryHost.tlsConfig, newTLSClient, hv]

/-- On `example.com` with the zero configuration the single variant is verified https. -/
theorem default_flags_single_variant_witness :
    (RegistryConfig.zero.PlainHTTP = none ∨ RegistryConfig.zero.PlainHTTP = some false) ∧
    (RegistryConfig.zero.Insecure = none ∨ RegistryConfig.zero.Insecure = some false) ∧
    loadTLSConfig linuxPlatform RegistryConfig.zero = .ok {} ∧
    (originTemplate "example.com").Scheme = "https" ∧
    ∃ e : RegistryHost,
      fillInsecureOpts linuxPlatform "example.com" RegistryConfig.zero
          (originTemplate "example.com") = .ok [e] ∧
      ((RegistryConfig.zero.PlainHTTP = some false ∨
          linuxPlatform.MatchLocalhost "example.com" = false) →
        e = { originTemplate "example.com" with Client := some (newTLSClient {}) } ∧
        e.Scheme = "https" ∧
        e.tlsConfig = some {} ∧
        e.verificationEnabled = true) :=
  ⟨by decide, by decide, by decide, by decide,
    default_flags_single_variant linuxPlatform "example.com" RegistryConfig.zero
      (originTemplate "example.com") {} (by decide) (by decide) (by decide) (by decide)⟩

/-- C9: with `PlainHTTP` true and a trust context that builds, the first variant
returned is the base with scheme http, whatever `Insecure` is and whether or not the
host address is localhost-like. -/
theorem plainHTTP_first_is_http (P : Platform) (host : String) (c : RegistryConfig)
    (h : RegistryHost) (tc : TLSConfig)
    (hp : c.PlainHTTP = some true) (htc : loadTLSConfig P c = .ok tc) :
    ∃ (first : RegistryHost) (rest : List RegistryHost),
      fillInsecureOpts P host c h = .ok (first :: rest) ∧
      first = { h with Scheme := "http" } ∧
      first.Scheme = "http" := by
  have hf := fillInsecureOpts_of_load P host c h tc htc
  rw [if_pos (Or.inl hp), List.append_assoc, List.singleton_append] at hf
  exact ⟨_, _, hf, rfl, rfl⟩

/-- With both `PlainHTTP` and `Insecure` set the first variant is the http one. -/
theorem plainHTTP_first_is_http_witness :
    ({ plainOnly with Insecure := some true } : RegistryConfig).PlainHTTP = some true ∧
    loadTLSConfig linuxPlatform { plainOnly with Insecure := some true } = .ok {} ∧
    ∃ (first : RegistryHost) (rest : List RegistryHost),
      fillInsecureOpts linuxPlatform "example.com" { plainOnly with Insecure := some true }
          (originTemplate "example.com") = .ok (first :: rest) ∧
      first = { originTemplate "example.com" with Scheme := "http" } ∧
      first.Scheme = "http" :=
  ⟨by decide, by decide,
    plainHTTP_first_is_http linuxPlatform "example.com" { plainOnly with Insecure := some true }
      (originTemplate "example.com") {} (by decide) (by decide)⟩

/-- C10 as stated fails: for a host with no entry the resolver function returns no
error and no endpoint. -/
theorem callback_unconfigured_is_empty :
    emptyConfigs "example.com" = none ∧
    NewRegistryConfig.callback linuxPlatform emptyConfigs "example.com" = .ok [] ∧
    ¬ (∀ out, NewRegistryConfig.callback linuxPlatform emptyConfigs "example.com" = .ok out →
        0 < out.length) := by
  refine ⟨by decide, by decide, ?_⟩
  intro hall
  exact absurd (hall [] rfl) (by decide)

/-- C10, amended: for a host that has an entry in the configuration map, when the
resolver function returns no error, the returned list holds at least one endpoint. -/
theorem callback_configured_nonempty (P : Platform) (m : ConfigMap) (host : String)
    (c : RegistryConfig) (out : List RegistryHost)
    (hc : m host = some c) (hout : NewRegistryConfig.callback P m host = .ok out) :
    0 < out.length := by
  obtain ⟨fromMirrors, fromOrigin, -, ho, hcat⟩ := (callback_ok_iff P m host c hc out).mp hout
  have hne := fillInsecureOpts_ne_nil P _ _ _ _ ho
  rw [hcat, List.length_append]
  have : 0 < fromOrigin.length := List.length_pos.mpr hne
  omega

/-- A configured `docker.io` resolves to a non-empty list. -/
theorem callback_configured_nonempty_witness :
    dockerConfigs "docker.io" = some insecureOnly ∧
    NewRegistryConfig.callback linuxPlatform dockerConfigs "docker.io" = .ok dockerResult ∧
    0 < dockerResult.length :=
  ⟨by decide, by decide,
    callback_configured_nonempty linuxPlatform dockerConfigs "docker.io" insecureOnly
      dockerResult (by decide) (by decide)⟩

/-! ## Further lemmas on the trust context builder -/

theorem loadTLSConfig_eq (P : Platform) (c : RegistryConfig) :
    loadTLSConfig P c =
      match startTLSConfig P c with
      | .error err => .error err
      | .ok tc => loadKeyPairs P c.KeyPairs (c.RootCAs.foldl (appendRootCA P) tc) := rfl

theorem foldl_appendRootCA_eq (P : Platform) (cas : List Bytes) :
    ∀ tc : TLSConfig,
      cas.foldl (appendRootCA P) tc =
        { tc with RootCAs := tc.RootCAs.map (fun pool => cas.foldl P.AppendCertsFromPEM pool) } := by
  induction cas with
  | nil =>
    intro tc
    cases tc with
    | mk pool certs skip => cases pool <;> rfl
  | cons p rest ih =>
    intro tc
    rw [List.foldl_cons, ih]
    cases tc with
    | mk pool certs skip => cases pool <;> rfl

theorem loadKeyPairs_ok_iff (P : Platform) (kps : List TLSKeyPair) :
    ∀ (tc tc' : TLSConfig),
      loadKeyPairs P kps tc = .ok tc' ↔
        ∃ certs : List TLSCertificate,
          List.Forall₂ (fun kp cert => P.X509KeyPair kp.Certificate kp.Key = .ok cert) kps certs ∧
          tc' = { tc with Certificates := tc.Certificates ++ certs } := by
  induction kps with
  | nil =>
    intro tc tc'
    simp only [loadKeyPairs, Except.ok.injEq]
    constructor
    · intro h
      exact ⟨[], List.Forall₂.nil, by simp [← h]⟩
    · rintro ⟨certs, hcerts, heq⟩
      cases hcerts
      simp [heq]
  | cons kp rest ih =>
    intro tc tc'
    simp only [loadKeyPairs]
    cases hk : P.X509KeyPair kp.Certificate kp.Key with
    | error err =>
      constructor
      · intro h; cases h
      · rintro ⟨certs, hcerts, -⟩
        cases hcerts with
        | cons h1 _ => rw [hk] at h1; cases h1
    | ok cert =>
      simp only
      rw [ih]
      constructor
      · rintro ⟨certs, hcerts, heq⟩
        exact ⟨cert :: certs, List.Forall₂.cons hk hcerts, by simp [heq]⟩
      · rintro ⟨certs, hcerts, heq⟩
        cases hcerts with
        | cons h1 h2 =>
          rw [hk] at h1
          cases h1
          exact ⟨_, h2, by simp [heq]⟩

theorem loadKeyPairs_error_iff (P : Platform) (kps : List TLSKeyPair) :
    ∀ (tc : TLSConfig) (err : GoError),
      loadKeyPairs P kps tc = .error err ↔
        ∃ (pre : List TLSKeyPair) (kp : TLSKeyPair) (post : List TLSKeyPair) (e : GoError),
          kps = pre ++ kp :: post ∧
          (∀ q ∈ pre, ∃ cert, P.X509KeyPair q.Certificate q.Key = .ok cert) ∧
          P.X509KeyPair kp.Certificate kp.Key = .error e ∧
          err = Wrapf e (utf8 "failed to load keypair for " ++ kp.Certificate) := by
  induction kps with
  | nil =>
    intro tc err
    simp [loadKeyPairs]
  | cons kp rest ih =>
    intro tc err
    simp only [loadKeyPairs]
    cases hk : P.X509KeyPair kp.Certificate kp.Key with
    | error e0 =>
      simp only [Except.error.injEq]
      constructor
      · intro h
        exact ⟨[], kp, rest, e0, rfl, by simp, hk, h.symm⟩
      · rintro ⟨pre, kp', post, e, hsplit, hpre, hfail, herr⟩
        cases pre with
        | nil =>
          simp only [List.nil_append, List.cons.injEq] at hsplit
          obtain ⟨rfl, -⟩ := hsplit
          rw [hk] at hfail
          cases hfail
          exact herr.symm
        | cons q pre' =>
          simp only [List.cons_append, List.cons.injEq] at hsplit
          obtain ⟨rfl, -⟩ := hsplit
          obtain ⟨cert, hcert⟩ := hpre kp (List.mem_cons_self _ _)
          rw [hk] at hcert
          cases hcert
    | ok cert =>
      simp only
      rw [ih]
      constructor
      · rintro ⟨pre, kp', post, e, hsplit, hpre, hfail, herr⟩
        refine ⟨kp :: pre, kp', post, e, by simp [hsplit], ?_, hfail, herr⟩
        intro q hq
        rcases List.mem_cons.mp hq with rfl | hq
        · exact ⟨cert, hk⟩
        · exact hpre q hq
      · rintro ⟨pre, kp', post, e, hsplit, hpre, hfail, herr⟩
        cases pre with
        | nil =>
          simp only [List.nil_append, List.cons.injEq] at hsplit
          obtain ⟨rfl, -⟩ := hsplit
          rw [hk] at hfail
          cases hfail
        | cons q pre' =>
          simp only [List.cons_append, List.cons.injEq] at hsplit
          obtain ⟨rfl, rfl⟩ := hsplit
          exact ⟨pre', kp', post, e, rfl,
            fun q hq => hpre q (List.mem_cons_of_mem _ hq), hfail, herr⟩

/-- The key-pair loop fails exactly when some key pair does not parse. -/
theorem loadKeyPairs_fails_iff (P : Platform) (kps : List TLSKeyPair) (tc : TLSConfig) :
    (∃ err, loadKeyPairs P kps tc = .error err) ↔
      ∃ kp ∈ kps, ∃ e, P.X509KeyPair kp.Certificate kp.Key = .error e := by
  constructor
  · rintro ⟨err, herr⟩
    obtain ⟨pre, kp, post, e, hsplit, -, hfail, -⟩ := (loadKeyPairs_error_iff P kps tc err).mp herr
    exact ⟨kp, by simp [hsplit], e, hfail⟩
  · rintro ⟨kp, hmem, e, hfail⟩
    cases hres : loadKeyPairs P kps tc with
    | error err => exact ⟨err, rfl⟩
    | ok tc' =>
      obtain ⟨certs, hcerts, -⟩ := (loadKeyPairs_ok_iff P kps tc tc').mp hres
      exfalso
      clear hres
      induction hcerts with
      | nil => cases hmem
      | cons h1 _ ih =>
        rcases List.mem_cons.mp hmem with rfl | hmem
        · rw [hfail] at h1; cases h1
        · exact ih hmem

/-- The starting configuration has no certificate and verification on; its pool is
nil exactly when `c.RootCAs` is empty. -/
theorem startTLSConfig_shape (P : Platform) (c : RegistryConfig) (tc0 : TLSConfig)
    (h : startTLSConfig P c = .ok tc0) :
    tc0.Certificates = [] ∧ tc0.InsecureSkipVerify = false ∧
      (c.RootCAs = [] → tc0.RootCAs = none) ∧
      (c.RootCAs ≠ [] →
        (∃ pool, P.SystemCertPool = .ok pool ∧ tc0.RootCAs = some pool) ∨
        ((∃ e, P.SystemCertPool = .error e) ∧ P.GOOS = "windows" ∧
          tc0.RootCAs = some NewCertPool)) := by
  unfold startTLSConfig at h
  simp only at h
  split at h
  · rename_i hlen
    have hne : c.RootCAs ≠ [] := List.ne_nil_of_length_pos hlen
    split at h
    · rename_i pool hpool
      cases h
      exact ⟨rfl, rfl, fun hnil => absurd hnil hne, fun _ => Or.inl ⟨pool, hpool, rfl⟩⟩
    · rename_i e he
      split at h
      · rename_i hos
        cases h
        exact ⟨rfl, rfl, fun hnil => absurd hnil hne, fun _ => Or.inr ⟨⟨e, he⟩, hos, rfl⟩⟩
      · cases h
  · rename_i hlen
    have hnil : c.RootCAs = [] := by
      cases hc : c.RootCAs with
      | nil => rfl
      | cons a l => rw [hc] at hlen; simp at hlen
    cases h
    exact ⟨rfl, rfl, fun _ => rfl, fun hne => absurd hnil hne⟩

/-- Once the first step has succeeded, what `loadTLSConfig` returns on success. -/
theorem loadTLSConfig_ok_of_start (P : Platform) (c : RegistryConfig) (tc0 tc : TLSConfig)
    (hstart : startTLSConfig P c = .ok tc0) :
    loadTLSConfig P c = .ok tc ↔
      ∃ certs : List TLSCertificate,
        List.Forall₂ (fun kp cert => P.X509KeyPair kp.Certificate kp.Key = .ok cert)
          c.KeyPairs certs ∧
        tc = { RootCAs := tc0.RootCAs.map (fun pool => c.RootCAs.foldl P.AppendCertsFromPEM pool)
               Certificates := certs
               InsecureSkipVerify := false } := by
  obtain ⟨hc0, hs0, -, -⟩ := startTLSConfig_shape P c tc0 hstart
  rw [loadTLSConfig_eq, hstart]
  simp only
  rw [loadKeyPairs_ok_iff, foldl_appendRootCA_eq]
  simp only [hc0, hs0, List.nil_append]

/-- Once the first step has succeeded, the errors of `loadTLSConfig` are those of the
key-pair loop. -/
theorem loadTLSConfig_error_of_start (P : Platform) (c : RegistryConfig) (tc0 : TLSConfig)
    (err : GoError) (hstart : startTLSConfig P c = .ok tc0) :
    loadTLSConfig P c = .error err ↔
      loadKeyPairs P c.KeyPairs (c.RootCAs.foldl (appendRootCA P) tc0) = .error err := by
  rw [loadTLSConfig_eq, hstart]

theorem startTLSConfig_windows (P : Platform) (c : RegistryConfig) (e : GoError)
    (hos : P.GOOS = "windows") (hsys : P.SystemCertPool = .error e) :
    startTLSConfig P c =
      .ok { RootCAs := if c.RootCAs = [] then none else some NewCertPool } := by
  unfold startTLSConfig
  cases hc : c.RootCAs with
  | nil => simp
  | cons a l => simp [hsys, hos]

theorem startTLSConfig_of_pool (P : Platform) (c : RegistryConfig) (sys : CertPool)
    (hsys : P.SystemCertPool = .ok sys) :
    startTLSConfig P c = .ok { RootCAs := if c.RootCAs = [] then none else some sys } := by
  unfold startTLSConfig
  cases hc : c.RootCAs with
  | nil => simp
  | cons a l => simp [hsys]

/-- If every key pair parses, the key-pair loop succeeds. -/
theorem loadKeyPairs_total (P : Platform) (kps : List TLSKeyPair) (tc : TLSConfig)
    (hparse : ∀ kp ∈ kps, ∃ cert, P.X509KeyPair kp.Certificate kp.Key = .ok cert) :
    ∃ tc', loadKeyPairs P kps tc = .ok tc' := by
  cases hres : loadKeyPairs P kps tc with
  | ok tc' => exact ⟨tc', rfl⟩
  | error err =>
    obtain ⟨kp, hmem, e, hfail⟩ := (loadKeyPairs_fails_iff P kps tc).mp ⟨err, hres⟩
    obtain ⟨cert, hcert⟩ := hparse kp hmem
    rw [hfail] at hcert
    cases hcert

/-- A key pair that fails to parse makes `loadTLSConfig` fail, whatever the first
step does. -/
theorem loadTLSConfig_fails_of_bad_pair (P : Platform) (c : RegistryConfig)
    (hbad : ∃ kp ∈ c.KeyPairs, ∃ e, P.X509KeyPair kp.Certificate kp.Key = .error e) :
    ∃ err, loadTLSConfig P c = .error err := by
  cases hstart : startTLSConfig P c with
  | error e =>
    refine ⟨e, ?_⟩
    rw [loadTLSConfig_eq, hstart]
  | ok tc0 =>
    obtain ⟨err, herr⟩ := (loadKeyPairs_fails_iff P c.KeyPairs
      (c.RootCAs.foldl (appendRootCA P) tc0)).mpr hbad
    exact ⟨err, (loadTLSConfig_error_of_start P c _ err hstart).mpr herr⟩

/-- Once the first step has succeeded, an error of `loadTLSConfig` is the wrapped
parse error of the first key pair that fails. -/
theorem loadTLSConfig_error_shape (P : Platform) (c : RegistryConfig) (tc0 : TLSConfig)
    (err : GoError) (hstart : startTLSConfig P c = .ok tc0)
    (herr : loadTLSConfig P c = .error err) :
    ∃ (pre : List TLSKeyPair) (kp : TLSKeyPair) (post : List TLSKeyPair) (e : GoError),
      c.KeyPairs = pre ++ kp :: post ∧
      (∀ q ∈ pre, ∃ cert, P.X509KeyPair q.Certificate q.Key = .ok cert) ∧
      P.X509KeyPair kp.Certificate kp.Key = .error e ∧
      err.msg = utf8 "failed to load keypair for " ++ kp.Certificate ++ utf8 ": " ++ e.msg ∧
      kp.Certificate <:+: err.msg := by
  rw [loadTLSConfig_error_of_start P c _ err hstart] at herr
  obtain ⟨pre, kp, post, e, hsplit, hpre, hfail, heq⟩ :=
    (loadKeyPairs_error_iff P c.KeyPairs _ err).mp herr
  refine ⟨pre, kp, post, e, hsplit, hpre, hfail, ?_, ?_⟩
  · rw [heq]; rfl
  · rw [heq]
    exact ⟨utf8 "failed to load keypair for ", utf8 ": " ++ e.msg, by simp [Wrapf]⟩

/-- Appending blocks keeps what the pool holds and adds every valid block. -/
theorem foldl_append_holds (P : Platform) (holds : CertPool → Bytes → Prop)
    (hkeep : ∀ pool p q, holds pool q → holds (P.AppendCertsFromPEM pool p) q)
    (cas : List Bytes) :
    ∀ pool : CertPool,
      (∀ q, holds pool q → holds (cas.foldl P.AppendCertsFromPEM pool) q) ∧
      ((∀ p ∈ cas, ∀ pool', holds (P.AppendCertsFromPEM pool' p) p) →
        ∀ p ∈ cas, holds (cas.foldl P.AppendCertsFromPEM pool) p) := by
  induction cas with
  | nil =>
    intro pool
    exact ⟨fun q hq => hq, fun _ p hp => by cases hp⟩
  | cons a rest ih =>
    intro pool
    rw [List.foldl_cons]
    obtain ⟨ih1, ih2⟩ := ih (P.AppendCertsFromPEM pool a)
    refine ⟨fun q hq => ih1 q (hkeep pool a q hq), ?_⟩
    intro hvalid p hp
    rcases List.mem_cons.mp hp with rfl | hp
    · exact ih1 p (hvalid p (List.mem_cons_self _ _) pool)
    · exact ih2 (fun p' hp' => hvalid p' (List.mem_cons_of_mem _ hp')) p hp

/-- Blocks that leave every pool as it is can be dropped from the list appended. -/
theorem foldl_append_filter (P : Platform) (malformed : Bytes → Bool)
    (hmal : ∀ p, malformed p = true → ∀ pool, P.AppendCertsFromPEM pool p = pool)
    (cas : List Bytes) :
    ∀ pool : CertPool,
      cas.foldl P.AppendCertsFromPEM pool =
        (cas.filter (fun p => !malformed p)).foldl P.AppendCertsFromPEM pool := by
  induction cas with
  | nil => intro pool; rfl
  | cons a rest ih =>
    intro pool
    cases hm : malformed a with
    | true =>
      rw [List.foldl_cons, hmal a hm pool, ih]
      simp [List.filter, hm]
    | false =>
      rw [List.foldl_cons, ih]
      simp [List.filter, hm]

/-- With no root CA and no key pair, `loadTLSConfig` returns the empty `tls.Config`
on every platform. -/
theorem loadTLSConfig_no_trust (P : Platform) (c : RegistryConfig)
    (hca : c.RootCAs = []) (hkp : c.KeyPairs = []) : loadTLSConfig P c = .ok {} := by
  unfold loadTLSConfig
  rw [hca, hkp]
  rfl

/-! ## Results on the trust context builder -/

/-- C11 as stated fails: on a Linux machine that cannot supply a system pool, a
configuration with one root CA and no key pair makes `loadTLSConfig` fail with the
pool error, though no key pair failed to parse. -/
theorem linux_without_system_pool_fails :
    linuxNoPool.SystemCertPool = .error ⟨utf8 "x509: no system roots"⟩ ∧
    oneRootCA.KeyPairs = [] ∧
    loadTLSConfig linuxNoPool oneRootCA =
      .error ⟨utf8 "unable to get system cert pool: x509: no system roots"⟩ ∧
    ¬ (∃ tc, loadTLSConfig linuxNoPool oneRootCA = .ok tc) := by
  refine ⟨by decide, by decide, by decide, ?_⟩
  rintro ⟨tc, htc⟩
  have hval : loadTLSConfig linuxNoPool oneRootCA =
      .error ⟨utf8 "unable to get system cert pool: x509: no system roots"⟩ := by decide
  rw [hval] at htc
  cases htc

/-- C11, amended: on a platform whose `runtime.GOOS` is `windows` and which cannot
supply a system pool, `loadTLSConfig` fails exactly when some key pair fails to parse;
when it succeeds and `RootCAs` is not empty, its pool is the empty pool with the
`RootCAs` appended in order (with no `RootCAs` the system pool is not asked for and
the pool stays nil). -/
theorem windows_without_system_pool (P : Platform) (c : RegistryConfig) (e : GoError)
    (hos : P.GOOS = "windows") (hsys : P.SystemCertPool = .error e) :
    ((∃ err, loadTLSConfig P c = .error err) ↔
      ∃ kp ∈ c.KeyPairs, ∃ e', P.X509KeyPair kp.Certificate kp.Key = .error e') ∧
    (∀ tc, loadTLSConfig P c = .ok tc →
      tc.RootCAs =
        if c.RootCAs = [] then none
        else some (c.RootCAs.foldl P.AppendCertsFromPEM NewCertPool)) := by
  have hstart := startTLSConfig_windows P c e hos hsys
  constructor
  · constructor
    · rintro ⟨err, herr⟩
      rw [loadTLSConfig_error_of_start P c _ err hstart] at herr
      exact (loadKeyPairs_fails_iff P c.KeyPairs _).mp ⟨err, herr⟩
    · intro hfail
      obtain ⟨err, herr⟩ := (loadKeyPairs_fails_iff P c.KeyPairs
        (c.RootCAs.foldl (appendRootCA P)
          { RootCAs := if c.RootCAs = [] then none else some NewCertPool })).mpr hfail
      exact ⟨err, (loadTLSConfig_error_of_start P c _ err hstart).mpr herr⟩
  · intro tc htc
    obtain ⟨certs, -, heq⟩ := (loadTLSConfig_ok_of_start P c _ tc hstart).mp htc
    rw [heq]
    by_cases hnil : c.RootCAs = [] <;> simp [hnil]

/-- On the Windows machine without system pool, one root CA and no key pair give a
trust context whose pool holds just that CA. -/
theorem windows_without_system_pool_witness :
    windowsNoPool.GOOS = "windows" ∧
    (∃ e, windowsNoPool.SystemCertPool = .error e) ∧
    loadTLSConfig windowsNoPool oneRootCA = .ok { RootCAs := some ⟨[utf8 "-ca-"]⟩ } ∧
    ((∃ err, loadTLSConfig windowsNoPool oneRootCA = .error err) ↔
      ∃ kp ∈ oneRootCA.KeyPairs, ∃ e',
        windowsNoPool.X509KeyPair kp.Certificate kp.Key = .error e') :=
  ⟨by decide, ⟨_, rfl⟩, by decide,
    (windows_without_system_pool windowsNoPool oneRootCA _ (by decide) rfl).1⟩

/-- C12: when the first step of `loadTLSConfig` (the CA pool, lines 79-90) succeeds,
`loadTLSConfig` fails exactly when some key pair of `KeyPairs` fails to parse; the
error is that of the first such pair in list order, wrapped so that its text is
`failed to load keypair for ` followed by that pair's certificate, `: ` and the parse
error; being an error, it comes with no trust context. -/
theorem loadTLSConfig_fails_iff_keypair (P : Platform) (c : RegistryConfig) (tc0 : TLSConfig)
    (hstart : startTLSConfig P c = .ok tc0) :
    ((∃ err, loadTLSConfig P c = .error err) ↔
      ∃ kp ∈ c.KeyPairs, ∃ e, P.X509KeyPair kp.Certificate kp.Key = .error e) ∧
    (∀ err, loadTLSConfig P c = .error err →
      ∃ (pre : List TLSKeyPair) (kp : TLSKeyPair) (post : List TLSKeyPair) (e : GoError),
        c.KeyPairs = pre ++ kp :: post ∧
        (∀ q ∈ pre, ∃ cert, P.X509KeyPair q.Certificate q.Key = .ok cert) ∧
        P.X509KeyPair kp.Certificate kp.Key = .error e ∧
        err.msg = utf8 "failed to load keypair for " ++ kp.Certificate ++ utf8 ": " ++ e.msg ∧
        kp.Certificate <:+: err.msg) := by
  constructor
  · constructor
    · rintro ⟨err, herr⟩
      rw [loadTLSConfig_error_of_start P c _ err hstart] at herr
      exact (loadKeyPairs_fails_iff P c.KeyPairs _).mp ⟨err, herr⟩
    · intro hfail
      obtain ⟨err, herr⟩ := (loadKeyPairs_fails_iff P c.KeyPairs
        (c.RootCAs.foldl (appendRootCA P) tc0)).mpr hfail
      exact ⟨err, (loadTLSConfig_error_of_start P c _ err hstart).mpr herr⟩
  · intro err herr
    rw [loadTLSConfig_error_of_start P c _ err hstart] at herr
    obtain ⟨pre, kp, post, e, hsplit, hpre, hfail, heq⟩ :=
      (loadKeyPairs_error_iff P c.KeyPairs _ err).mp herr
    refine ⟨pre, kp, post, e, hsplit, hpre, hfail, ?_, ?_⟩
    · rw [heq]; rfl
    · rw [heq]
      exact ⟨utf8 "failed to load keypair for ", utf8 ": " ++ e.msg, by simp [Wrapf]⟩

/-- Two key pairs, the second broken: the error names the second certificate. -/
theorem loadTLSConfig_fails_iff_keypair_witness :
    startTLSConfig linuxPlatform secondPairBroken = .ok {} ∧
    loadTLSConfig linuxPlatform secondPairBroken =
      .error ⟨utf8 "failed to load keypair for bad: tls: failed to find any PEM data"⟩ ∧
    ∃ (pre : List TLSKeyPair) (kp : TLSKeyPair) (post : List TLSKeyPair) (e : GoError),
      secondPairBroken.KeyPairs = pre ++ kp :: post ∧
      (∀ q ∈ pre, ∃ cert, linuxPlatform.X509KeyPair q.Certificate q.Key = .ok cert) ∧
      linuxPlatform.X509KeyPair kp.Certificate kp.Key = .error e ∧
      (⟨utf8 "failed to load keypair for bad: tls: failed to find any PEM data"⟩ : GoError).msg =
        utf8 "failed to load keypair for " ++ kp.Certificate ++ utf8 ": " ++ e.msg ∧
      kp.Certificate <:+:
        (⟨utf8 "failed to load keypair for bad: tls: failed to find any PEM data"⟩ : GoError).msg :=
  ⟨by decide, by decide,
    (loadTLSConfig_fails_iff_keypair linuxPlatform secondPairBroken {} (by decide)).2 _
      (by decide)⟩

/-- C13 as stated fails: `example.com` is configured with a key pair that does not
parse; the error of resolving it reads `failed to load keypair for bad: ...`, which
holds the certificate `bad` but not the host name. -/
theorem keypair_error_omits_host :
    brokenOriginConfigs "example.com" = some secondPairBroken ∧
    (∃ kp ∈ secondPairBroken.KeyPairs, ∃ e,
      linuxPlatform.X509KeyPair kp.Certificate kp.Key = .error e) ∧
    NewRegistryConfig.callback linuxPlatform brokenOriginConfigs "example.com" =
      .error ⟨utf8 "failed to load keypair for bad: tls: failed to find any PEM data"⟩ ∧
    utf8 "bad" <:+: utf8 "failed to load keypair for bad: tls: failed to find any PEM data" ∧
    ¬ (utf8 "example.com" <:+:
        utf8 "failed to load keypair for bad: tls: failed to find any PEM data") :=
  ⟨by decide, ⟨{ Key := [], Certificate := utf8 "bad" }, by decide, _, rfl⟩, by decide,
    by decide, by decide⟩

/-- C13, amended: resolving a configured host whose entry has a key pair that fails
to parse returns an error; when the trust contexts of its mirrors build and the first
step of its own trust context succeeds, the text of that error is
`failed to load keypair for `, the certificate of the first failing key pair, `: ` and
the parse error: it holds the offending certificate and nothing about the host. -/
theorem callback_keypair_error (P : Platform) (m : ConfigMap) (host : String)
    (c : RegistryConfig) (hc : m host = some c)
    (hbad : ∃ kp ∈ c.KeyPairs, ∃ e, P.X509KeyPair kp.Certificate kp.Key = .error e) :
    ∃ err, NewRegistryConfig.callback P m host = .error err ∧
      ((∀ mirror ∈ c.Mirrors, ∃ tc, loadTLSConfig P (m.index mirror) = .ok tc) →
        (∃ tc0, startTLSConfig P c = .ok tc0) →
        ∃ (pre : List TLSKeyPair) (kp : TLSKeyPair) (post : List TLSKeyPair) (e : GoError),
          c.KeyPairs = pre ++ kp :: post ∧
          (∀ q ∈ pre, ∃ cert, P.X509KeyPair q.Certificate q.Key = .ok cert) ∧
          P.X509KeyPair kp.Certificate kp.Key = .error e ∧
          err.msg = utf8 "failed to load keypair for " ++ kp.Certificate ++ utf8 ": " ++ e.msg ∧
          kp.Certificate <:+: err.msg) := by
  obtain ⟨lerr, hlerr⟩ := loadTLSConfig_fails_of_bad_pair P c hbad
  rw [callback_of_entry P m host c hc]
  cases hm : mirrorLoop P m c.Mirrors [] with
  | error err =>
    refine ⟨err, rfl, ?_⟩
    intro hmirrors _
    obtain ⟨mirror, hmem, hfail⟩ := mirrorLoop_error_from P m c.Mirrors [] err hm
    obtain ⟨tc, htc⟩ := hmirrors mirror hmem
    rw [hfail] at htc
    cases htc
  | ok fromMirrors =>
    simp only
    rw [(fillInsecureOpts_error_iff P _ c _ lerr).mpr hlerr]
    refine ⟨lerr, rfl, ?_⟩
    rintro - ⟨tc0, hstart⟩
    exact loadTLSConfig_error_shape P c tc0 lerr hstart hlerr

/-- The broken second key pair of `example.com` is the one the error names. -/
theorem callback_keypair_error_witness :
    brokenOriginConfigs "example.com" = some secondPairBroken ∧
    ∃ err, NewRegistryConfig.callback linuxPlatform brokenOriginConfigs "example.com"
        = .error err ∧
      ((∀ mirror ∈ secondPairBroken.Mirrors,
          ∃ tc, loadTLSConfig linuxPlatform (brokenOriginConfigs.index mirror) = .ok tc) →
        (∃ tc0, startTLSConfig linuxPlatform secondPairBroken = .ok tc0) →
        ∃ (pre : List TLSKeyPair) (kp : TLSKeyPair) (post : List TLSKeyPair) (e : GoError),
          secondPairBroken.KeyPairs = pre ++ kp :: post ∧
          (∀ q ∈ pre, ∃ cert, linuxPlatform.X509KeyPair q.Certificate q.Key = .ok cert) ∧
          linuxPlatform.X509KeyPair kp.Certificate kp.Key = .error e ∧
          err.msg = utf8 "failed to load keypair for " ++ kp.Certificate ++ utf8 ": " ++ e.msg ∧
          kp.Certificate <:+: err.msg) :=
  ⟨by decide,
    callback_keypair_error linuxPlatform brokenOriginConfigs "example.com" secondPairBroken
      (by decide) ⟨{ Key := [], Certificate := utf8 "bad" }, by decide, _, rfl⟩⟩

/-- C14: when the platform supplies the system pool `sys`, a configuration whose key
pairs all parse always gets a trust context, whatever `RootCAs` holds: its pool is
`sys` with the `RootCAs` appended, and any block that the pool ignores (a malformed
one) is as good as absent from the list; a key pair that fails to parse, on the other
hand, always makes `loadTLSConfig` fail. -/
theorem loadTLSConfig_rootCA_lenient (P : Platform) (c : RegistryConfig) (sys : CertPool)
    (hsys : P.SystemCertPool = .ok sys) :
    ((∀ kp ∈ c.KeyPairs, ∃ cert, P.X509KeyPair kp.Certificate kp.Key = .ok cert) →
      ∃ tc, loadTLSConfig P c = .ok tc ∧
        tc.RootCAs =
          (if c.RootCAs = [] then none
           else some (c.RootCAs.foldl P.AppendCertsFromPEM sys)) ∧
        ∀ malformed : Bytes → Bool,
          (∀ p, malformed p = true → ∀ pool, P.AppendCertsFromPEM pool p = pool) →
          c.RootCAs.foldl P.AppendCertsFromPEM sys =
            (c.RootCAs.filter (fun p => !malformed p)).foldl P.AppendCertsFromPEM sys) ∧
    ((∃ kp ∈ c.KeyPairs, ∃ e, P.X509KeyPair kp.Certificate kp.Key = .error e) →
      ∃ err, loadTLSConfig P c = .error err) := by
  have hstart := startTLSConfig_of_pool P c sys hsys
  refine ⟨?_, loadTLSConfig_fails_of_bad_pair P c⟩
  intro hparse
  obtain ⟨tc, htc⟩ := loadKeyPairs_total P c.KeyPairs
    (c.RootCAs.foldl (appendRootCA P)
      { RootCAs := if c.RootCAs = [] then none else some sys }) hparse
  have hload : loadTLSConfig P c = .ok tc := by
    rw [loadTLSConfig_eq, hstart]
    exact htc
  refine ⟨tc, hload, ?_, fun malformed hmal => foldl_append_filter P malformed hmal c.RootCAs sys⟩
  obtain ⟨certs, -, heq⟩ := (loadTLSConfig_ok_of_start P c _ tc hstart).mp hload
  rw [heq]
  by_cases hnil : c.RootCAs = [] <;> simp [hnil]

/-- On the platform whose pool ignores blocks that do not start with a dash, the
block `junk` of `trustedConfig` is left out and the trust context is built. -/
theorem loadTLSConfig_rootCA_lenient_witness :
    pemPlatform.SystemCertPool = .ok ⟨[utf8 "system-root"]⟩ ∧
    (∀ kp ∈ trustedConfig.KeyPairs,
      ∃ cert, pemPlatform.X509KeyPair kp.Certificate kp.Key = .ok cert) ∧
    loadTLSConfig pemPlatform trustedConfig =
      .ok { RootCAs := some ⟨[utf8 "system-root", utf8 "-ca-"]⟩
            Certificates := [⟨[utf8 "cert"], utf8 "key"⟩] } ∧
    ∃ tc, loadTLSConfig pemPlatform trustedConfig = .ok tc ∧
      tc.RootCAs =
        (if trustedConfig.RootCAs = [] then none
         else some (trustedConfig.RootCAs.foldl pemPlatform.AppendCertsFromPEM
            ⟨[utf8 "system-root"]⟩)) ∧
      ∀ malformed : Bytes → Bool,
        (∀ p, malformed p = true → ∀ pool, pemPlatform.AppendCertsFromPEM pool p = pool) →
        trustedConfig.RootCAs.foldl pemPlatform.AppendCertsFromPEM ⟨[utf8 "system-root"]⟩ =
          (trustedConfig.RootCAs.filter (fun p => !malformed p)).foldl
            pemPlatform.AppendCertsFromPEM ⟨[utf8 "system-root"]⟩ :=
  have hparse : ∀ kp ∈ trustedConfig.KeyPairs,
      ∃ cert, pemPlatform.X509KeyPair kp.Certificate kp.Key = .ok cert := by
    intro kp hkp
    have hkp' : kp ∈ [({ Key := utf8 "key", Certificate := utf8 "cert" } : TLSKeyPair)] := hkp
    rw [List.mem_singleton.mp hkp']
    exact ⟨_, rfl⟩
  ⟨by decide, hparse, by decide,
    (loadTLSConfig_rootCA_lenient pemPlatform trustedConfig ⟨[utf8 "system-root"]⟩
      (by decide)).1 hparse⟩

/-- C15 as stated fails: on a Linux machine that cannot supply a system pool, with a
pool that takes every block and holds what was appended to it, one root CA and one key
pair that parses, `loadTLSConfig` returns the pool error and no trust context. -/
theorem roundtrip_fails_without_system_pool :
    (∀ (pool : CertPool) (p q : Bytes),
      q ∈ pool.certs → q ∈ (linuxNoPool.AppendCertsFromPEM pool p).certs) ∧
    (∀ p ∈ caAndPair.RootCAs, ∀ pool : CertPool,
      p ∈ (linuxNoPool.AppendCertsFromPEM pool p).certs) ∧
    (∀ kp ∈ caAndPair.KeyPairs,
      ∃ cert, linuxNoPool.X509KeyPair kp.Certificate kp.Key = .ok cert) ∧
    loadTLSConfig linuxNoPool caAndPair =
      .error ⟨utf8 "unable to get system cert pool: x509: no system roots"⟩ ∧
    ¬ (∃ tc, loadTLSConfig linuxNoPool caAndPair = .ok tc) := by
  have hval : loadTLSConfig linuxNoPool caAndPair =
      .error ⟨utf8 "unable to get system cert pool: x509: no system roots"⟩ := by decide
  refine ⟨fun pool p q hq => List.mem_append_left _ hq,
    fun p _ pool => List.mem_append_right _ (List.mem_singleton_self p), ?_, hval, ?_⟩
  · intro kp hkp
    have hkp' : kp ∈ [({ Key := utf8 "key", Certificate := utf8 "cert" } : TLSKeyPair)] := hkp
    rw [List.mem_singleton.mp hkp']
    exact ⟨_, rfl⟩
  · rintro ⟨tc, htc⟩
    rw [hval] at htc
    cases htc

/-- C15, amended: whenever the first step of `loadTLSConfig` (the CA pool, lines 79-90)
succeeds, for a configuration whose root CAs are valid (appending one to any pool
gives a pool that holds it, and appending never removes anything, `holds` being what a
pool holds) and whose key pairs all parse, `loadTLSConfig` returns a trust context
such that: if there are root CAs, its pool is the starting pool with the `RootCAs`
appended in order, the starting pool being the system pool, or the empty pool on
Windows without a system pool, and it holds every supplied CA and all that the
starting pool holds; its certificates are the parsed key pairs, in the order
configured; and verification is not disabled. -/
theorem loadTLSConfig_roundtrip (P : Platform) (c : RegistryConfig) (tc0 : TLSConfig)
    (holds : CertPool → Bytes → Prop)
    (hstart : startTLSConfig P c = .ok tc0)
    (hkeep : ∀ pool p q, holds pool q → holds (P.AppendCertsFromPEM pool p) q)
    (hvalid : ∀ p ∈ c.RootCAs, ∀ pool, holds (P.AppendCertsFromPEM pool p) p)
    (hparse : ∀ kp ∈ c.KeyPairs, ∃ cert, P.X509KeyPair kp.Certificate kp.Key = .ok cert) :
    ∃ tc, loadTLSConfig P c = .ok tc ∧
      (∀ p ∈ c.RootCAs, ∃ start : CertPool,
        (P.SystemCertPool = .ok start ∨
          ((∃ e, P.SystemCertPool = .error e) ∧ P.GOOS = "windows" ∧ start = NewCertPool)) ∧
        tc.RootCAs = some (c.RootCAs.foldl P.AppendCertsFromPEM start) ∧
        holds (c.RootCAs.foldl P.AppendCertsFromPEM start) p ∧
        ∀ q, holds start q → holds (c.RootCAs.foldl P.AppendCertsFromPEM start) q) ∧
      (c.RootCAs = [] → tc.RootCAs = none) ∧
      List.Forall₂ (fun kp cert => P.X509KeyPair kp.Certificate kp.Key = .ok cert)
        c.KeyPairs tc.Certificates ∧
      tc.InsecureSkipVerify = false := by
  obtain ⟨tc, htc⟩ := loadKeyPairs_total P c.KeyPairs
    (c.RootCAs.foldl (appendRootCA P) tc0) hparse
  have hload : loadTLSConfig P c = .ok tc := by
    rw [loadTLSConfig_eq, hstart]
    exact htc
  obtain ⟨certs, hcerts, heq⟩ := (loadTLSConfig_ok_of_start P c tc0 tc hstart).mp hload
  obtain ⟨-, -, hnil, hcons⟩ := startTLSConfig_shape P c tc0 hstart
  refine ⟨tc, hload, ?_, ?_, ?_, ?_⟩
  · intro p hp
    have hne : c.RootCAs ≠ [] := List.ne_nil_of_mem hp
    have hfrom : ∀ start : CertPool, tc0.RootCAs = some start →
        tc.RootCAs = some (c.RootCAs.foldl P.AppendCertsFromPEM start) ∧
        holds (c.RootCAs.foldl P.AppendCertsFromPEM start) p ∧
        ∀ q, holds start q → holds (c.RootCAs.foldl P.AppendCertsFromPEM start) q := by
      intro start hs
      obtain ⟨h1, h2⟩ := foldl_append_holds P holds hkeep c.RootCAs start
      refine ⟨?_, h2 hvalid p hp, h1⟩
      rw [heq, hs]
      rfl
    rcases hcons hne with ⟨pool, hsys, hpool⟩ | ⟨herr, hos, hpool⟩
    · exact ⟨pool, Or.inl hsys, hfrom pool hpool⟩
    · exact ⟨NewCertPool, Or.inr ⟨herr, hos, rfl⟩, hfrom NewCertPool hpool⟩
  · intro hempty
    rw [heq, hnil hempty]
    rfl
  · rw [heq]
    exact hcerts
  · rw [heq]

/-- On the Linux platform, whose pool takes every block, one root CA and one key pair
come back in the trust context. -/
theorem loadTLSConfig_roundtrip_witness :
    startTLSConfig linuxPlatform caAndPair = .ok { RootCAs := some ⟨[]⟩ } ∧
    loadTLSConfig linuxPlatform caAndPair =
      .ok { RootCAs := some ⟨[utf8 "-ca-"]⟩
            Certificates := [⟨[utf8 "cert"], utf8 "key"⟩] } ∧
    ∃ tc, loadTLSConfig linuxPlatform caAndPair = .ok tc ∧
      (∀ p ∈ caAndPair.RootCAs, ∃ start : CertPool,
        (linuxPlatform.SystemCertPool = .ok start ∨
          ((∃ e, linuxPlatform.SystemCertPool = .error e) ∧ linuxPlatform.GOOS = "windows" ∧
            start = NewCertPool)) ∧
        tc.RootCAs = some (caAndPair.RootCAs.foldl linuxPlatform.AppendCertsFromPEM start) ∧
        p ∈ (caAndPair.RootCAs.foldl linuxPlatform.AppendCertsFromPEM start).certs ∧
        ∀ q, q ∈ start.certs →
          q ∈ (caAndPair.RootCAs.foldl linuxPlatform.AppendCertsFromPEM start).certs) ∧
      (caAndPair.RootCAs = [] → tc.RootCAs = none) ∧
      List.Forall₂
        (fun (kp : TLSKeyPair) (cert : TLSCertificate) =>
          linuxPlatform.X509KeyPair kp.Certificate kp.Key = .ok cert)
        caAndPair.KeyPairs tc.Certificates ∧
      tc.InsecureSkipVerify = false :=
  ⟨by decide, by decide,
    loadTLSConfig_roundtrip linuxPlatform caAndPair { RootCAs := some ⟨[]⟩ }
      (fun pool p => p ∈ pool.certs) (by decide)
      (fun pool p q hq => List.mem_append_left _ hq)
      (fun p _ pool => List.mem_append_right _ (List.mem_singleton_self p))
      (fun kp hkp => by
        have hkp' : kp ∈ [({ Key := utf8 "key", Certificate := utf8 "cert" } : TLSKeyPair)] := hkp
        rw [List.mem_singleton.mp hkp']
        exact ⟨_, rfl⟩)⟩

/-! ## Results on mirrors -/

/-- C16: for a host `host` that is neither localhost-like nor `docker.io`, whose entry
lists the single mirror `mirror` and sets nothing else, while the entry of `mirror`
only sets `PlainHTTP` to true, resolving `host` returns exactly two endpoints, in this
order: the http endpoint for `mirror` and the verified https endpoint for `host`. -/
theorem callback_mirror_own_config (P : Platform) (m : ConfigMap) (host mirror : String)
    (hlocal : P.MatchLocalhost host = false) (hdocker : host ≠ "docker.io")
    (hhost : m host = some { RegistryConfig.zero with Mirrors := [mirror] })
    (hmirror : m mirror = some { RegistryConfig.zero with PlainHTTP := some true }) :
    NewRegistryConfig.callback P m host =
      .ok [{ mirrorTemplate mirror with Scheme := "http" },
           { originTemplate host with Client := some (newTLSClient {}) }] ∧
    ({ mirrorTemplate mirror with Scheme := "http" } : RegistryHost).Host = mirror ∧
    ({ originTemplate host with Client := some (newTLSClient {}) } : RegistryHost).Host = host ∧
    ({ originTemplate host with Client := some (newTLSClient {}) } : RegistryHost).Scheme
      = "https" ∧
    ({ originTemplate host with Client := some (newTLSClient {}) }
      : RegistryHost).verificationEnabled = true := by
  refine ⟨?_, rfl, rfl, rfl, rfl⟩
  have hidx : m.index mirror = { RegistryConfig.zero with PlainHTTP := some true } := by
    unfold ConfigMap.index
    rw [hmirror]
    rfl
  have h1 : fillInsecureOpts P mirror (m.index mirror) (mirrorTemplate mirror) =
      .ok [{ mirrorTemplate mirror with Scheme := "http" }] := by
    rw [hidx, fillInsecureOpts_of_load P mirror { RegistryConfig.zero with PlainHTTP := some true }
      (mirrorTemplate mirror) {} (loadTLSConfig_no_trust P _ rfl rfl)]
    simp [RegistryConfig.zero]
  have h2 : fillInsecureOpts P host { RegistryConfig.zero with Mirrors := [mirror] }
      (originTemplate host) =
      .ok [{ originTemplate host with Client := some (newTLSClient {}) }] := by
    rw [fillInsecureOpts_of_load P host { RegistryConfig.zero with Mirrors := [mirror] }
      (originTemplate host) {} (loadTLSConfig_no_trust P _ rfl rfl)]
    simp [RegistryConfig.zero, hlocal]
  rw [callback_of_entry P m host _ hhost]
  simp only [mirrorLoop, h1, if_neg hdocker, h2, List.nil_append, List.singleton_append]

/-- Scenario A of the specification, with the mirror expanded by its own entry. -/
theorem callback_mirror_own_config_witness :
    linuxPlatform.MatchLocalhost "example.com" = false ∧
    mirroredConfigs "example.com" = some { RegistryConfig.zero with Mirrors := ["mirror.local"] } ∧
    mirroredConfigs "mirror.local" = some { RegistryConfig.zero with PlainHTTP := some true } ∧
    NewRegistryConfig.callback linuxPlatform mirroredConfigs "example.com" =
      .ok [{ mirrorTemplate "mirror.local" with Scheme := "http" },
           { originTemplate "example.com" with Client := some (newTLSClient {}) }] :=
  ⟨by decide, by decide, by decide,
    (callback_mirror_own_config linuxPlatform mirroredConfigs "example.com" "mirror.local"
      (by decide) (by decide) (by decide) (by decide)).1⟩

/-! ## Further results on the expander -/

/-- C18 as stated fails: on `localhost`, with `PlainHTTP` unset and a key pair that
does not parse, the host address matches the localhost pattern, yet `fillInsecureOpts`
on the origin template returns the key-pair error and so no http variant. -/
theorem unset_plain_localhost_broken_trust :
    brokenKeyPair.PlainHTTP = none ∧
    linuxPlatform.MatchLocalhost "localhost" = true ∧
    (originTemplate "localhost").Scheme = "https" ∧
    fillInsecureOpts linuxPlatform "localhost" brokenKeyPair (originTemplate "localhost") =
      .error ⟨utf8 "failed to load keypair for bad: tls: failed to find any PEM data"⟩ ∧
    ¬ (∃ out, fillInsecureOpts linuxPlatform "localhost" brokenKeyPair
          (originTemplate "localhost") = .ok out ∧
        ∃ e ∈ out, e.Scheme = "http") := by
  have hval : fillInsecureOpts linuxPlatform "localhost" brokenKeyPair
      (originTemplate "localhost") =
      .error ⟨utf8 "failed to load keypair for bad: tls: failed to find any PEM data"⟩ := by
    decide
  refine ⟨by decide, by decide, by decide, hval, ?_⟩
  rintro ⟨out, hout, -⟩
  rw [hval] at hout
  cases hout

/-- C18, amended: for a base of scheme https and every host address, localhost-like or
not: with `PlainHTTP` explicitly false no variant that `fillInsecureOpts` returns has
scheme http; and when the trust context builds, `fillInsecureOpts` returns variants
among which, with `PlainHTTP` explicitly false, none has scheme http and, with
`PlainHTTP` unset, one has scheme http exactly when the host address matches the
localhost pattern. -/
theorem plainHTTP_tristate (P : Platform) (host : String) (c : RegistryConfig)
    (h : RegistryHost) (hs : h.Scheme = "https") :
    (∀ out : List RegistryHost, fillInsecureOpts P host c h = .ok out →
      c.PlainHTTP = some false → ∀ e ∈ out, e.Scheme ≠ "http") ∧
    (∀ tc : TLSConfig, loadTLSConfig P c = .ok tc →
      ∃ out : List RegistryHost,
        fillInsecureOpts P host c h = .ok out ∧
        (c.PlainHTTP = some false → ∀ e ∈ out, e.Scheme ≠ "http") ∧
        (c.PlainHTTP = none →
          ((∃ e ∈ out, e.Scheme = "http") ↔ P.MatchLocalhost host = true))) := by
  have key : ∀ tc : TLSConfig, loadTLSConfig P c = .ok tc →
      ∃ out : List RegistryHost,
        fillInsecureOpts P host c h = .ok out ∧
        (c.PlainHTTP = some false → ∀ e ∈ out, e.Scheme ≠ "http") ∧
        (c.PlainHTTP = none →
          ((∃ e ∈ out, e.Scheme = "http") ↔ P.MatchLocalhost host = true)) := by
    intro tc htc
    refine ⟨_, fillInsecureOpts_of_load P host c h tc htc, ?_, ?_⟩
    · intro hp
      by_cases hi : c.Insecure = some true <;> simp [hp, hi, hs]
    · intro hp
      rcases hl : P.MatchLocalhost host with _ | _ <;>
        by_cases hi : c.Insecure = some true <;> simp [hp, hi, hs]
  refine ⟨?_, key⟩
  intro out hout hp
  obtain ⟨tc, htc⟩ := fillInsecureOpts_ok_load P host c h out hout
  obtain ⟨out', hout', hno, -⟩ := key tc htc
  rw [hout] at hout'
  cases hout'
  exact hno hp

/-- On `localhost`, `PlainHTTP` explicitly false gives no http variant, and with
`PlainHTTP` unset the http variant is there. -/
theorem plainHTTP_tristate_witness :
    (originTemplate "localhost").Scheme = "https" ∧
    linuxPlatform.MatchLocalhost "localhost" = true ∧
    fillInsecureOpts linuxPlatform "localhost" { RegistryConfig.zero with PlainHTTP := some false }
        (originTemplate "localhost") =
      .ok [{ originTemplate "localhost" with Client := some (newTLSClient {}) }] ∧
    (∀ e ∈ [({ originTemplate "localhost" with Client := some (newTLSClient {}) }
        : RegistryHost)], e.Scheme ≠ "http") ∧
    loadTLSConfig linuxPlatform RegistryConfig.zero = .ok {} ∧
    ∃ out : List RegistryHost,
      fillInsecureOpts linuxPlatform "localhost" RegistryConfig.zero
          (originTemplate "localhost") = .ok out ∧
      (RegistryConfig.zero.PlainHTTP = some false → ∀ e ∈ out, e.Scheme ≠ "http") ∧
      (RegistryConfig.zero.PlainHTTP = none →
        ((∃ e ∈ out, e.Scheme = "http") ↔ linuxPlatform.MatchLocalhost "localhost" = true)) :=
  ⟨by decide, by decide, by decide,
    (plainHTTP_tristate linuxPlatform "localhost"
      { RegistryConfig.zero with PlainHTTP := some false }
      (originTemplate "localhost") (by decide)).1 _ (by decide) (by decide),
    by decide,
    (plainHTTP_tristate linuxPlatform "localhost" RegistryConfig.zero
      (originTemplate "localhost") (by decide)).2 {} (by decide)⟩

/-- C19 as stated fails for a base endpoint whose own client already skips
verification: with `PlainHTTP` true and `Insecure` unset the plaintext variant keeps
that client, so an endpoint with verification disabled is returned. -/
theorem plaintext_variant_keeps_base_client :
    plainOnly.Insecure = none ∧
    insecureBase.verificationDisabled = true ∧
    fillInsecureOpts linuxPlatform "example.com" plainOnly insecureBase =
      .ok [{ insecureBase with Scheme := "http" }] ∧
    ({ insecureBase with Scheme := "http" } : RegistryHost).verificationDisabled = true ∧
    ¬ (∀ out, fillInsecureOpts linuxPlatform "example.com" plainOnly insecureBase = .ok out →
        ∀ e ∈ out, e.verificationDisabled = false) := by
  refine ⟨by decide, by decide, by decide, by decide, ?_⟩
  intro hall
  exact absurd (hall _ rfl { insecureBase with Scheme := "http" } (List.mem_cons_self _ _))
    (by decide)

/-- C19, amended: for every host address, configuration and base endpoint, and every
list `out` that `fillInsecureOpts` returns: if `Insecure` is unset or false and the
client of the base does not itself carry a TLS configuration with verification
disabled, no endpoint of `out` carries one; and when the fallback variant is emitted
(plaintext not eligible and `Insecure` not true) it is the only endpoint, its client
carries the trust context that `loadTLSConfig` returned, and verification is enabled
in it. -/
theorem verification_disabled_only_on_request (P : Platform) (host : String)
    (c : RegistryConfig) (h : RegistryHost) (out : List RegistryHost)
    (hout : fillInsecureOpts P host c h = .ok out) :
    ((c.Insecure = none ∨ c.Insecure = some false) → h.verificationDisabled = false →
      ∀ e ∈ out, e.verificationDisabled = false) ∧
    ((¬ (c.PlainHTTP = some true ∨ (c.PlainHTTP = none ∧ P.MatchLocalhost host = true)) ∧
        c.Insecure ≠ some true) →
      ∃ tc, loadTLSConfig P c = .ok tc ∧
        out = [{ h with Client := some (newTLSClient tc) }] ∧
        ({ h with Client := some (newTLSClient tc) } : RegistryHost).tlsConfig = some tc ∧
        tc.InsecureSkipVerify = false ∧
        ({ h with Client := some (newTLSClient tc) } : RegistryHost).verificationEnabled
          = true) := by
  obtain ⟨tc, htc⟩ := fillInsecureOpts_ok_load P host c h out hout
  have hv := loadTLSConfig_skipVerify P c tc htc
  rw [fillInsecureOpts_of_load P host c h tc htc] at hout
  cases hout
  constructor
  · intro hi hbase e he
    have hi' : c.Insecure ≠ some true := by
      rcases hi with hi | hi <;> simp [hi]
    simp only [if_neg hi', List.append_nil, List.mem_append] at he
    rcases he with he | he
    · split at he
      · rw [List.mem_singleton.mp he]
        exact hbase
      · cases he
    · split at he
      · rw [List.mem_singleton.mp he]
        simp [RegistryHost.verificationDisabled, RegistryHost.tlsConfig, newTLSClient, hv]
      · cases he
  · rintro ⟨hpl, hi'⟩
    refine ⟨tc, htc, ?_, rfl, hv, ?_⟩
    · simp [hpl, hi']
    · simp [RegistryHost.verificationEnabled, RegistryHost.tlsConfig, newTLSClient, hv]

/-- With the zero configuration on `example.com` the fallback is the only endpoint
and verifies certificates. -/
theorem verification_disabled_only_on_request_witness :
    fillInsecureOpts linuxPlatform "example.com" RegistryConfig.zero
        (originTemplate "example.com") =
      .ok [{ originTemplate "example.com" with Client := some (newTLSClient {}) }] ∧
    ∀ e ∈ [({ originTemplate "example.com" with Client := some (newTLSClient {}) }
        : RegistryHost)],
      e.verificationDisabled = false :=
  ⟨by decide,
    (verification_disabled_only_on_request linuxPlatform "example.com" RegistryConfig.zero
      (originTemplate "example.com") _ (by decide)).1 (Or.inl rfl) (by decide)⟩

/-! ## Mirrors without an entry -/

/-- The mirror loop over a list in two parts runs the first part and carries on with
the second. -/
theorem mirrorLoop_append (P : Platform) (m : ConfigMap) (pre rest : List String) :
    ∀ acc : List RegistryHost,
      mirrorLoop P m (pre ++ rest) acc =
        match mirrorLoop P m pre acc with
        | .error err => .error err
        | .ok out => mirrorLoop P m rest out := by
  induction pre with
  | nil => intro acc; rfl
  | cons mirror tail ih =>
    intro acc
    simp only [List.cons_append, mirrorLoop]
    cases fillInsecureOpts P mirror (m.index mirror) (mirrorTemplate mirror) with
    | error err => rfl
    | ok hosts => exact ih _

/-- The mirror loop only adds to what is accumulated. -/
theorem mirrorLoop_extends (P : Platform) (m : ConfigMap) (ms : List String)
    (acc r : List RegistryHost) (h : mirrorLoop P m ms acc = .ok r) :
    ∃ added, r = acc ++ added := by
  obtain ⟨per, -, hr⟩ := (mirrorLoop_ok_iff P m ms acc r).mp h
  exact ⟨per.flatten, hr⟩

/-- C20: a mirror listed for a configured host and without an entry of its own is
expanded with the zero configuration: its trust context always builds and is empty (no
custom CA, no client certificate, verification on), and it contributes exactly one
endpoint to a successful resolution, after the endpoints of the mirrors listed before
it: the mirror template with scheme http when the mirror matches the localhost
pattern, and otherwise the https mirror template with a client over the empty trust
context.  An error of the resolution is never that mirror's: it is the error of the
trust context of another listed mirror or of the host itself. -/
theorem callback_bare_mirror (P : Platform) (m : ConfigMap) (host : String)
    (c : RegistryConfig) (pre : List String) (mirror : String) (post : List String)
    (hc : m host = some c) (hsplit : c.Mirrors = pre ++ mirror :: post)
    (hnone : m mirror = none) :
    m.index mirror = RegistryConfig.zero ∧
    loadTLSConfig P (m.index mirror) = .ok {} ∧
    fillInsecureOpts P mirror (m.index mirror) (mirrorTemplate mirror) =
      .ok [if P.MatchLocalhost mirror = true then { mirrorTemplate mirror with Scheme := "http" }
           else { mirrorTemplate mirror with Client := some (newTLSClient {}) }] ∧
    (∀ out, NewRegistryConfig.callback P m host = .ok out →
      ∃ before after : List RegistryHost,
        mirrorLoop P m pre [] = .ok before ∧
        out = before ++
          [if P.MatchLocalhost mirror = true then { mirrorTemplate mirror with Scheme := "http" }
           else { mirrorTemplate mirror with Client := some (newTLSClient {}) }] ++ after) ∧
    (∀ err, NewRegistryConfig.callback P m host = .error err →
      (∃ other ∈ pre ++ post, loadTLSConfig P (m.index other) = .error err) ∨
        loadTLSConfig P c = .error err) := by
  have hidx : m.index mirror = RegistryConfig.zero := by
    unfold ConfigMap.index
    rw [hnone]
    rfl
  have hload : loadTLSConfig P (m.index mirror) = .ok {} := by
    rw [hidx]
    exact loadTLSConfig_no_trust P _ rfl rfl
  have hfill : fillInsecureOpts P mirror (m.index mirror) (mirrorTemplate mirror) =
      .ok [if P.MatchLocalhost mirror = true then { mirrorTemplate mirror with Scheme := "http" }
           else { mirrorTemplate mirror with Client := some (newTLSClient {}) }] := by
    rw [fillInsecureOpts_of_load P mirror (m.index mirror) (mirrorTemplate mirror) {} hload, hidx]
    rcases hl : P.MatchLocalhost mirror with _ | _ <;> simp [RegistryConfig.zero]
  refine ⟨hidx, hload, hfill, ?_, ?_⟩
  · intro out hout
    obtain ⟨fromMirrors, fromOrigin, hm, -, hcat⟩ := (callback_ok_iff P m host c hc out).mp hout
    rw [hsplit, mirrorLoop_append] at hm
    cases hb : mirrorLoop P m pre [] with
    | error err => rw [hb] at hm; cases hm
    | ok before =>
      rw [hb] at hm
      simp only [mirrorLoop, hfill] at hm
      obtain ⟨added, hadd⟩ := mirrorLoop_extends P m post _ _ hm
      refine ⟨before, added ++ fromOrigin, rfl, ?_⟩
      rw [hcat, hadd, List.append_assoc]
  · intro err herr
    rw [callback_of_entry P m host c hc] at herr
    cases hm : mirrorLoop P m c.Mirrors [] with
    | error e =>
      rw [hm] at herr
      cases herr
      obtain ⟨other, hmem, hfail⟩ := mirrorLoop_error_from P m c.Mirrors [] _ hm
      rw [hsplit] at hmem
      rcases List.mem_append.mp hmem with hmem | hmem
      · exact Or.inl ⟨other, List.mem_append_left _ hmem, hfail⟩
      · rcases List.mem_cons.mp hmem with rfl | hmem
        · rw [hload] at hfail
          cases hfail
        · exact Or.inl ⟨other, List.mem_append_right _ hmem, hfail⟩
    | ok fromMirrors =>
      rw [hm] at herr
      simp only at herr
      cases hf : fillInsecureOpts P (if host = "docker.io" then "registry-1.docker.io" else host)
          c (originTemplate (if host = "docker.io" then "registry-1.docker.io" else host)) with
      | error e =>
        rw [hf] at herr
        cases herr
        exact Or.inr ((fillInsecureOpts_error_iff P _ c _ _).mp hf)
      | ok hosts =>
        rw [hf] at herr
        cases herr

/-- Host `example.com` with the mirrors `localhost` and `mirror.local`, neither
configured: the second mirror gives one verified https endpoint after the http
endpoint of the first. -/
theorem callback_bare_mirror_witness :
    bareMirrorConfigs "example.com" =
      some { RegistryConfig.zero with Mirrors := ["localhost", "mirror.local"] } ∧
    bareMirrorConfigs "mirror.local" = none ∧
    NewRegistryConfig.callback linuxPlatform bareMirrorConfigs "example.com" =
      .ok [{ mirrorTemplate "localhost" with Scheme := "http" },
           { mirrorTemplate "mirror.local" with Client := some (newTLSClient {}) },
           { originTemplate "example.com" with Client := some (newTLSClient {}) }] ∧
    fillInsecureOpts linuxPlatform "mirror.local" (bareMirrorConfigs.index "mirror.local")
        (mirrorTemplate "mirror.local") =
      .ok [if linuxPlatform.MatchLocalhost "mirror.local" = true then
             { mirrorTemplate "mirror.local" with Scheme := "http" }
           else { mirrorTemplate "mirror.local" with Client := some (newTLSClient {}) }] :=
  ⟨by decide, by decide, by decide,
    (callback_bare_mirror linuxPlatform bareMirrorConfigs "example.com"
      { RegistryConfig.zero with Mirrors := ["localhost", "mirror.local"] }
      ["localhost"] "mirror.local" [] (by decide) (by decide) (by decide)).2.2.1⟩

end Resolver

namespace Tests

/-! ## Build references -/

theorem splitChars_ne_nil (sep : Char) (l : List Char) : splitChars sep l ≠ [] := by
  cases l with
  | nil => simp [splitChars]
  | cons ch rest =>
    simp only [splitChars]
    split
    · simp
    · split <;> simp

theorem splitChars_of_not_mem (sep : Char) (l : List Char) (h : sep ∉ l) :
    splitChars sep l = [l] := by
  induction l with
  | nil => rfl
  | cons ch rest ih =>
    have hne : ch ≠ sep := fun e => h (e ▸ List.mem_cons_self _ _)
    have hrest : sep ∉ rest := fun hm => h (List.mem_cons_of_mem _ hm)
    simp only [splitChars, if_neg hne, ih hrest]

theorem splitChars_append_sep (sep : Char) (l rest : List Char) (h : sep ∉ l) :
    splitChars sep (l ++ sep :: rest) = l :: splitChars sep rest := by
  induction l with
  | nil => simp [splitChars]
  | cons ch tail ih =>
    have hne : ch ≠ sep := fun e => h (e ▸ List.mem_cons_self _ _)
    have htail : sep ∉ tail := fun hm => h (List.mem_cons_of_mem _ hm)
    have e := ih htail
    rw [List.cons_append]
    simp only [splitChars, if_neg hne]
    rw [e]

/-- Joining the pieces with the separator gives the list back. -/
theorem join_splitChars (sep : Char) (l : List Char) :
    ∀ pieces, splitChars sep l = pieces →
      ∃ first others, pieces = first :: others ∧
        l = first ++ (others.map (fun piece => sep :: piece)).flatten := by
  induction l with
  | nil =>
    intro pieces h
    simp only [splitChars] at h
    exact ⟨[], [], h.symm, rfl⟩
  | cons ch rest ih =>
    intro pieces h
    obtain ⟨first, others, hp, hl⟩ := ih _ rfl
    simp only [splitChars] at h
    by_cases hc : ch = sep
    · rw [if_pos hc] at h
      refine ⟨[], splitChars sep rest, h.symm, ?_⟩
      rw [hp, hc]
      simp [← hl]
    · rw [if_neg hc, hp] at h
      refine ⟨ch :: first, others, h.symm, ?_⟩
      rw [List.cons_append, ← hl]

theorem split_three (s a b c : String) (h : Split s '/' = [a, b, c]) :
    s = a ++ "/" ++ b ++ "/" ++ c := by
  unfold Split at h
  obtain ⟨first, others, hp, hl⟩ := join_splitChars '/' s.data _ rfl
  rw [hp] at h
  simp only [List.map_cons] at h
  cases others with
  | nil => simp at h
  | cons o1 others =>
    cases others with
    | nil => simp at h
    | cons o2 others =>
      cases others with
      | cons o3 others => simp at h
      | nil =>
        simp only [List.map_cons, List.map_nil, List.cons.injEq, and_true] at h
        obtain ⟨rfl, rfl, rfl⟩ := h
        apply String.ext
        rw [hl]
        simp

theorem split_string (r : buildRef) (hb : '/' ∉ r.Builder.data) (hn : '/' ∉ r.Node.data)
    (hr : '/' ∉ r.Ref.data) : Split r.String '/' = [r.Builder, r.Node, r.Ref] := by
  unfold Split buildRef.String
  have hd : (r.Builder ++ "/" ++ r.Node ++ "/" ++ r.Ref).data =
      r.Builder.data ++ '/' :: (r.Node.data ++ '/' :: r.Ref.data) := by
    simp [String.data_append]
  rw [hd, splitChars_append_sep _ _ _ hb, splitChars_append_sep _ _ _ hn,
    splitChars_of_not_mem _ _ hr]
  rfl

/-- C17: `buildRef.String` is builder, `/`, node, `/`, ref.  If splitting a string on
`/` gives exactly three parts, `buildTestProject` builds the reference made of those
parts and its `String` is the string split; and for a reference whose three fields
hold no `/`, splitting its `String` on `/` gives the three fields back, so that
`buildTestProject` reads the same reference off it. -/
theorem buildRef_String_roundtrip :
    (∀ r : buildRef, r.String = r.Builder ++ "/" ++ r.Node ++ "/" ++ r.Ref) ∧
    (∀ s a b c : GoString, Split s '/' = [a, b, c] →
      buildTestProject.parse s = some { Builder := a, Node := b, Ref := c } ∧
      ({ Builder := a, Node := b, Ref := c } : buildRef).String = s) ∧
    (∀ r : buildRef, '/' ∉ r.Builder.data → '/' ∉ r.Node.data → '/' ∉ r.Ref.data →
      Split r.String '/' = [r.Builder, r.Node, r.Ref] ∧
      buildTestProject.parse r.String = some r) := by
  refine ⟨fun _ => rfl, ?_, ?_⟩
  · intro s a b c h
    refine ⟨?_, (split_three s a b c h).symm⟩
    unfold buildTestProject.parse
    rw [h]
  · intro r hb hn hr
    have h := split_string r hb hn hr
    refine ⟨h, ?_⟩
    unfold buildTestProject.parse
    rw [h]

/-- The reference `default/default0/abc123` is read and rendered back. -/
theorem buildRef_String_roundtrip_witness :
    Split "default/default0/abc123" '/' = ["default", "default0", "abc123"] ∧
    (buildTestProject.parse "default/default0/abc123" =
        some { Builder := "default", Node := "default0", Ref := "abc123" } ∧
      ({ Builder := "default", Node := "default0", Ref := "abc123" } : buildRef).String =
        "default/default0/abc123") ∧
    (Split ({ Builder := "default", Node := "default0", Ref := "abc123" } : buildRef).String '/'
        = ["default", "default0", "abc123"] ∧
      buildTestProject.parse
          ({ Builder := "default", Node := "default0", Ref := "abc123" } : buildRef).String =
        some { Builder := "default", Node := "default0", Ref := "abc123" }) :=
  ⟨by decide,
    buildRef_String_roundtrip.2.1 "default/default0/abc123" "default" "default0" "abc123"
      (by decide),
    buildRef_String_roundtrip.2.2 { Builder := "default", Node := "default0", Ref := "abc123" }
      (by decide) (by decide) (by decide)⟩

end Tests
